import Mathlib

/-! # Trello → Clubhouse migration pipeline

A shallow embedding of `export.go` and `import.go`.

* Go strings are Lean `String`s, slices are `List`s (a nil slice and an empty
  slice are both `[]`), pointers that may be nil are `Option`s.
* Calls to the outside world (Trello, Clubhouse, S3, HTTP, the clock) are
  explicit state passing over an arbitrary world type `σ`; every call and every
  line written to stdout is recorded, in program order, in a list of events.
* `log.Fatal` and a nil-pointer dereference end the run; a function that can hit
  one returns an `Option`, with `none` for the run that ended there.
-/

namespace TrelloToClubhouse

/-! ## Data model (`export.go`, and the fields of the client libraries the code reads) -/

/-- An instant (`time.Time`); the code only copies instants around. -/
structure Time where
  unixNano : Int
deriving DecidableEq, Repr

/-- Fields of `trello.Member` read by the code. -/
structure Member where
  Id : String
  FullName : String
deriving DecidableEq, Repr

/-- The `Data` part of a `trello.Action`. -/
structure ActionData where
  Text : String
deriving DecidableEq, Repr

/-- Fields of `trello.Action` read by the code; `Typ` is the Go field `Type`
(a reserved word here). -/
structure Action where
  Typ : String
  Date : String
  Data : ActionData
  MemberCreator : Member
deriving DecidableEq, Repr

/-- Fields of a checklist item read by the code. -/
structure CheckItem where
  State : String
  Name : String
deriving DecidableEq, Repr

/-- Fields of `trello.Checklist` read by the code. -/
structure Checklist where
  Name : String
  CheckItems : List CheckItem
deriving DecidableEq, Repr

/-- Fields of `trello.Attachment` read by the code. -/
structure Attachment where
  Name : String
  Url : String
  IdMember : String
deriving DecidableEq, Repr

/-- `Task` of `export.go`. -/
structure Task where
  Completed : Bool
  Description : String
deriving DecidableEq, Repr

/-- `Comment` of `export.go`; `CreatedAt` is a `*time.Time`. -/
structure Comment where
  Text : String
  IDCreator : String
  CreatorName : String
  CreatedAt : Option Time
deriving DecidableEq, Repr

/-- `TrAttachments` of `export.go`. -/
structure TrAttachments where
  Url : String
  IDCreator : String
deriving DecidableEq, Repr

/-- `Card` of `export.go`. `Position` holds the bits of the `float32`, which no
embedded function inspects. `Attachments` is the Go map, kept as an association
list with at most one entry per key (see `mapSet`). -/
structure Card where
  Name : String
  Desc : String
  Labels : List String
  DueDate : Option Time
  IDCreator : String
  IDOwners : List String
  CreatedAt : Option Time
  Comments : List Comment
  Tasks : List Task
  Position : Nat
  ShortURL : String
  Attachments : List (String × TrAttachments)
deriving DecidableEq, Repr

/-- `m[k] = v` on a Go map kept as an association list: an existing key keeps
its place and gets the new value, a new key is added. -/
def mapSet (m : List (String × TrAttachments)) (k : String) (v : TrAttachments) :
    List (String × TrAttachments) :=
  match m with
  | [] => [(k, v)]
  | (k', v') :: rest => if k' = k then (k, v) :: rest else (k', v') :: mapSet rest k v

/-- `m[k]` with the comma-ok result. -/
def mapGet (m : List (String × TrAttachments)) (k : String) : Option TrAttachments :=
  match m with
  | [] => none
  | (k', v') :: rest => if k' = k then some v' else mapGet rest k

/-! ## `export.go`: the card normaliser -/

/-- `dateLayout` of `export.go`. -/
def dateLayout : String := "2006-01-02T15:04:05.000Z"

/-- `parseDateOrReturnNil`: `timeParse` stands for Go's `time.Parse`
(layout first, value second); a parse error gives nil. -/
def parseDateOrReturnNil (timeParse : String → String → Except String Time)
    (strDate : String) : Option Time :=
  match timeParse dateLayout strDate with
  | .ok d => some d
  | .error _ => none

/-- The three local variables of `getCommentsAndCardCreator`. -/
structure ScanState where
  creator : String
  createdAt : Option Time
  comments : List Comment
deriving DecidableEq, Repr

/-- One iteration of the `for _, a := range actions` loop of
`getCommentsAndCardCreator`. -/
def scanAction (timeParse : String → String → Except String Time)
    (st : ScanState) (a : Action) : ScanState :=
  if a.Typ = "commentCard" ∧ a.Data.Text ≠ "" then
    { st with comments := st.comments ++
        [{ Text := a.Data.Text
           IDCreator := a.MemberCreator.Id
           CreatorName := a.MemberCreator.FullName
           CreatedAt := parseDateOrReturnNil timeParse a.Date }] }
  else if a.Typ = "createCard" then
    { st with creator := a.MemberCreator.Id
              createdAt := parseDateOrReturnNil timeParse a.Date }
  else st

/-- `getCommentsAndCardCreator`, given the slice `card.Actions()` returned. A
failed query only prints a line and the loop still runs over the returned
slice, so the error value is not an input here. -/
def getCommentsAndCardCreator (timeParse : String → String → Except String Time)
    (actions : List Action) : String × Option Time × List Comment :=
  let st := actions.foldl (scanAction timeParse) { creator := "", createdAt := none, comments := [] }
  (st.creator, st.createdAt, st.comments)

/-- The body of the inner loop of `getCheckListsForCard`: the task of one item. -/
def taskOfItem (cl : Checklist) (i : CheckItem) : Task :=
  let completed : Bool := if i.State = "complete" then true else false
  { Completed := completed, Description := cl.Name ++ " - " ++ i.Name }

/-- `getCheckListsForCard`, given the slice `card.Checklists()` returned (a
failed query only prints a line). Both loops append to `tasks`. -/
def getCheckListsForCard (checklists : List Checklist) : List Task :=
  checklists.foldl
    (fun tasks cl => cl.CheckItems.foldl (fun tasks i => tasks ++ [taskOfItem cl i]) tasks) []

/-! ### Attachment paths -/

/-- Membership in the class `[a-zA-Z0-9_.]` of `safeFileNameRegexp`. -/
def isSafeChar (c : Char) : Bool :=
  ('a' ≤ c ∧ c ≤ 'z') ∨ ('A' ≤ c ∧ c ≤ 'Z') ∨ ('0' ≤ c ∧ c ≤ '9') ∨ c = '_' ∨ c = '.'

/-- `safeFileNameRegexp.ReplaceAllString(_, "_")` on the characters of a name:
every maximal run of characters outside the class becomes one underscore.
`inRun` says the previous character was part of the run being replaced. -/
def replaceUnsafeRuns (inRun : Bool) : List Char → List Char
  | [] => []
  | c :: cs =>
    if isSafeChar c then c :: replaceUnsafeRuns false cs
    else if inRun then replaceUnsafeRuns true cs
    else '_' :: replaceUnsafeRuns true cs

/-- The `name` computed for an attachment in both relocators. -/
def safeFileName (name : String) : String :=
  String.mk (replaceUnsafeRuns false name.data)

/-- `fmt.Sprintf("/trello/%s/%s/%d%s%s", card.IdList, card.Id, i, "_", name)` of
`downloadCardAttachmentsUploadToDropbox`; `i` is a slice index. -/
def dropboxPath (idList id : String) (i : Nat) (name : String) : String :=
  "/trello/" ++ idList ++ "/" ++ id ++ "/" ++ toString i ++ "_" ++ name

/-- The `folderPath` of `downloadCardAttachmentsUploadToAWSS3`. -/
def folderPath (idList id : String) : String :=
  "/trello/" ++ idList ++ "/" ++ id ++ "/"

/-- The `path` of `downloadCardAttachmentsUploadToAWSS3`:
`fmt.Sprintf("%s%d%s%s", folderPath, i, "_", name)`. -/
def s3Path (idList id : String) (i : Nat) (name : String) : String :=
  folderPath idList id ++ toString i ++ "_" ++ name

/-! ## Identity map -/

/-- Modelled from the spec: `UserMap` and its method `GetCreator` are declared in
a file of the repository that is not among the sources. The spec describes the
identity map as "a mapping from source user identifier to target user identifier,
with one designated fallback target identity used when no mapping exists". -/
structure UserMap where
  entries : List (String × String)
  fallback : String
deriving DecidableEq, Repr

/-- Modelled from the spec: `GetCreator` resolves a source identifier through the
identity map and gives the fallback identity when there is no entry for it. -/
def UserMap.GetCreator (um : UserMap) (id : String) : String :=
  match um.entries.lookup id with
  | some target => target
  | none => um.fallback

/-! ## `import.go`: payload types of the Clubhouse client, as the code fills them -/

/-- Fields of `ch.Story` read by the code. -/
structure Story where
  ID : Int
  Name : String
deriving DecidableEq, Repr

/-- `ch.CreateLabel`. -/
structure CreateLabel where
  Name : String
deriving DecidableEq, Repr

/-- `ch.CreateTask`. -/
structure CreateTask where
  Complete : Bool
  Description : String
deriving DecidableEq, Repr

/-- `ch.CreateComment`; `CreatedAt` is a `time.Time` value, `AuthorID` is the
empty string when the code does not set it. -/
structure CreateComment where
  CreatedAt : Time
  AuthorID : String
  Text : String
deriving DecidableEq, Repr

/-- `ch.CreateLinkedFile`; `Typ` is the Go field `Type`. -/
structure CreateLinkedFile where
  Name : String
  Typ : String
  URL : String
  UploaderID : String
deriving DecidableEq, Repr

/-- Fields of `ch.LinkedFile` read by the code. -/
structure LinkedFile where
  ID : Int
deriving DecidableEq, Repr

/-- `ch.CreateStory`, the fields `buildClubhouseStory` sets. -/
structure CreateStory where
  ProjectID : Int
  WorkflowStateID : Int
  RequestedByID : String
  OwnerIds : List String
  StoryType : String
  FollowerIds : List String
  FileIds : List Int
  Name : String
  Description : String
  Deadline : Option Time
  CreatedAt : Option Time
  Labels : List CreateLabel
  Tasks : List CreateTask
  Comments : List CreateComment
  LinkedFileIds : List Int
deriving DecidableEq, Repr

/-- Fields of `ch.Project` read by the code. -/
structure Project where
  ID : Int
deriving DecidableEq, Repr

/-- Fields of `ch.State` read by the code. -/
structure State where
  ID : Int
deriving DecidableEq, Repr

/-- `ClubhouseOptions` of `clubhouse_options.go`, the fields `import.go` reads.
The client `ClubhouseEntry` is the `World` below. -/
structure ClubhouseOptions where
  Project : Project
  State : State
  StoryType : String
  AddCommentWithTrelloLink : Bool
deriving DecidableEq, Repr

/-- `exitsCardBehavior` of `import.go`. -/
inductive exitsCardBehavior where
  | SkipExists
  | DeleteExists
  | AllowDupes
deriving DecidableEq, Repr

/-- The outside world of `import.go`: the methods of `opts.ClubhouseEntry` the
code calls, and the clock. A Go result pair `(value, error)` is a pair whose
second part is `none` for a nil error. `ListStories` gives the slice alone: the
code discards its error. -/
structure World (σ : Type) where
  ListStories : Int → σ → List Story × σ
  DeleteStory : Int → σ → Option String × σ
  CreateStory : TrelloToClubhouse.CreateStory → σ → (Story × Option String) × σ
  CreateLinkedFiles : CreateLinkedFile → σ → (LinkedFile × Option String) × σ
  Now : σ → Time × σ

/-- `outputFormat` of `import.go`. -/
def outputFormat : String := "%-40s %-17s %s\n"

/-- What `import.go` does that is visible from outside, in program order: each
call to the Clubhouse client with what it returned, and each print. `printf`
carries the format and the arguments as `%s`/`%d` render them. -/
inductive Event where
  | println (line : String)
  | printf (format : String) (args : List String)
  | listStories (projectID : Int) (stories : List Story)
  | deleteStory (id : Int) (err : Option String)
  | createStory (payload : CreateStory) (st : Story) (err : Option String)
  | createLinkedFiles (lf : CreateLinkedFile) (r : LinkedFile) (err : Option String)
  | printLinkedFile (lf : CreateLinkedFile) (r : LinkedFile)
  | printLinkedFileFailure (cardName : String) (link : TrAttachments) (err : String)
deriving DecidableEq, Repr

/-- A value computed with side effects: the value, the events in order, and the
world afterwards. -/
structure Res (σ : Type) (α : Type) where
  val : α
  events : List Event
  world : σ

/-- `getStoryDuplicates`. -/
def getStoryDuplicates {σ : Type} (W : World σ) (opts : ClubhouseOptions) (card : Card)
    (w : σ) : Res σ (List Int) :=
  let r := W.ListStories opts.Project.ID w
  { val := r.1.foldl (fun dupes story =>
      if story.Name = card.Name then dupes ++ [story.ID] else dupes) []
    events := [Event.listStories opts.Project.ID r.1]
    world := r.2 }

/-- `mapOwnersFromTrelloCard`. -/
def mapOwnersFromTrelloCard (c : Card) (um : UserMap) : List String :=
  c.IDOwners.foldl (fun owners o => owners ++ [um.GetCreator o]) []

/-- `buildTasks`. -/
def buildTasks (card : Card) : List CreateTask :=
  card.Tasks.foldl
    (fun tasks t => tasks ++ [{ Complete := t.Completed, Description := t.Description }]) []

/-- `buildLabels`. -/
def buildLabels (card : Card) : List CreateLabel :=
  card.Labels.foldl (fun labels l => labels ++ [{ Name := l }]) []

/-- The first loop of `buildComments`. `*cm.CreatedAt` dereferences a pointer:
on a nil pointer the program panics, which is the result `none`. -/
def buildCommentsLoop (um : UserMap) :
    List Comment → List CreateComment → Option (List CreateComment)
  | [], comments => some comments
  | cm :: rest, comments =>
    match cm.CreatedAt with
    | none => none
    | some t =>
      buildCommentsLoop um rest
        (comments ++ [{ CreatedAt := t, AuthorID := um.GetCreator cm.IDCreator, Text := cm.Text }])

/-- `buildComments`; `none` is the nil-pointer panic. `time.Now()` is read only
when the link comment is added. -/
def buildComments {σ : Type} (W : World σ) (card : Card) (addCommentWithTrelloLink : Bool)
    (um : UserMap) (w : σ) : Res σ (Option (List CreateComment)) :=
  match buildCommentsLoop um card.Comments [] with
  | none => { val := none, events := [], world := w }
  | some comments =>
    if addCommentWithTrelloLink then
      let n := W.Now w
      { val := some (comments ++
          [{ CreatedAt := n.1, AuthorID := "", Text := "Card imported from Trello: " ++ card.ShortURL }])
        events := []
        world := n.2 }
    else { val := some comments, events := [], world := w }

/-- The loop of `buildLinkFiles` over the entries of `card.Attachments`, in the
order the Go runtime yields them (the order of the association list here). -/
def buildLinkFilesLoop {σ : Type} (W : World σ) (card : Card) (um : UserMap) :
    List (String × TrAttachments) → List Int → σ → Res σ (List Int)
  | [], ids, w => { val := ids, events := [], world := w }
  | (k, v) :: rest, ids, w =>
    let lf : CreateLinkedFile :=
      { Name := k, Typ := "url", URL := v.Url, UploaderID := um.GetCreator v.IDCreator }
    let r := W.CreateLinkedFiles lf w
    match r.1.2 with
    | some err =>
      let tl := buildLinkFilesLoop W card um rest ids r.2
      { tl with events :=
          [Event.createLinkedFiles lf r.1.1 r.1.2, Event.printLinkedFile lf r.1.1,
            Event.printLinkedFileFailure card.Name v err] ++ tl.events }
    | none =>
      let tl := buildLinkFilesLoop W card um rest (ids ++ [r.1.1.ID]) r.2
      { tl with events :=
          [Event.createLinkedFiles lf r.1.1 r.1.2, Event.printLinkedFile lf r.1.1] ++ tl.events }

/-- `buildLinkFiles`. -/
def buildLinkFiles {σ : Type} (W : World σ) (card : Card) (um : UserMap) (w : σ) :
    Res σ (List Int) :=
  buildLinkFilesLoop W card um card.Attachments [] w

/-- `buildClubhouseStory`; the calls in the struct literal run in source order,
so a panic in `buildComments` happens before any linked file is created. -/
def buildClubhouseStory {σ : Type} (W : World σ) (card : Card) (opts : ClubhouseOptions)
    (um : UserMap) (w : σ) : Res σ (Option CreateStory) :=
  let cs := buildComments W card opts.AddCommentWithTrelloLink um w
  match cs.val with
  | none => { val := none, events := cs.events, world := cs.world }
  | some comments =>
    let lfs := buildLinkFiles W card um cs.world
    { val := some
        { ProjectID := opts.Project.ID
          WorkflowStateID := opts.State.ID
          RequestedByID := um.GetCreator card.IDCreator
          OwnerIds := mapOwnersFromTrelloCard card um
          StoryType := opts.StoryType
          FollowerIds := []
          FileIds := []
          Name := card.Name
          Description := card.Desc
          Deadline := card.DueDate
          CreatedAt := card.CreatedAt
          Labels := buildLabels card
          Tasks := buildTasks card
          Comments := comments
          LinkedFileIds := lfs.val }
      events := cs.events ++ lfs.events
      world := lfs.world }

/-- The `for _, id := range getStoryDuplicates(opts, c)` loop of the driver:
`DeleteStory` on each id, and a status line when the call returned an error. -/
def deleteDuplicates {σ : Type} (W : World σ) (c : Card) : List Int → σ → Res σ Unit
  | [], w => { val := (), events := [], world := w }
  | id :: rest, w =>
    let r := W.DeleteStory id w
    let tl := deleteDuplicates W c rest r.2
    match r.1 with
    | some _ =>
      { tl with events :=
          [Event.deleteStory id r.1,
            Event.printf outputFormat [c.ShortURL, "Deleted Matching", "Story ID: " ++ toString id]]
            ++ tl.events }
    | none => { tl with events := Event.deleteStory id r.1 :: tl.events }

/-- The end of the loop body of the driver: build the payload, call
`CreateStory`, print the status line. The value is `false` when the program
panicked while building. -/
def createAndReport {σ : Type} (W : World σ) (c : Card) (opts : ClubhouseOptions)
    (um : UserMap) (w : σ) : Res σ Bool :=
  let b := buildClubhouseStory W c opts um w
  match b.val with
  | none => { val := false, events := b.events, world := b.world }
  | some payload =>
    let r := W.CreateStory payload b.world
    match r.1.2 with
    | some err =>
      { val := true
        events := b.events ++
          [Event.createStory payload r.1.1 r.1.2, Event.printf outputFormat [c.ShortURL, "Failed", err]]
        world := r.2 }
    | none =>
      { val := true
        events := b.events ++
          [Event.createStory payload r.1.1 r.1.2,
            Event.printf outputFormat [c.ShortURL, "Success", "Story ID: " ++ toString r.1.1.ID]]
        world := r.2 }

/-- One iteration of the `for _, c := range *cards` loop of
`ImportCardsIntoClubhouse`; `recreateCardsBool` is the duplicate mode. The value
is `true` when the loop goes on to the next card, `false` when the program
panicked. -/
def importCard {σ : Type} (W : World σ) (recreateCardsBool : exitsCardBehavior)
    (opts : ClubhouseOptions) (um : UserMap) (card : Card) (w : σ) : Res σ Bool :=
  let c : Card := { card with IDOwners := [] }
  let del : Res σ Unit :=
    if recreateCardsBool = exitsCardBehavior.DeleteExists then
      let d := getStoryDuplicates W opts c w
      let x := deleteDuplicates W c d.val d.world
      { x with events := d.events ++ x.events }
    else { val := (), events := [], world := w }
  if recreateCardsBool = exitsCardBehavior.SkipExists then
    let d := getStoryDuplicates W opts c del.world
    if d.val.length > 0 then
      { val := true, events := del.events ++ d.events, world := d.world }
    else
      let x := createAndReport W c opts um d.world
      { x with events := del.events ++ d.events ++ x.events }
  else
    let x := createAndReport W c opts um del.world
    { x with events := del.events ++ x.events }

/-- The outcome of a run of the driver: what was printed before the loop, the
events of each card that was processed (one entry per card, in input order),
whether the run ended in a panic, and the world afterwards. -/
structure Run (σ : Type) where
  header : List Event
  perCard : List (List Event)
  panicked : Bool
  world : σ

/-- The `for _, c := range *cards` loop of `ImportCardsIntoClubhouse`. -/
def importLoop {σ : Type} (W : World σ) (recreateCardsBool : exitsCardBehavior)
    (opts : ClubhouseOptions) (um : UserMap) : List Card → σ → Run σ
  | [], w => { header := [], perCard := [], panicked := false, world := w }
  | c :: rest, w =>
    let r := importCard W recreateCardsBool opts um c w
    if r.val then
      let tl := importLoop W recreateCardsBool opts um rest r.world
      { tl with perCard := r.events :: tl.perCard }
    else { header := [], perCard := [r.events], panicked := true, world := r.world }

/-- `ImportCardsIntoClubhouse`, with the duplicate mode `recreateCardsBool` an
explicit argument. -/
def ImportCardsIntoClubhouse {σ : Type} (W : World σ) (recreateCardsBool : exitsCardBehavior)
    (cards : List Card) (opts : ClubhouseOptions) (um : UserMap) (w : σ) : Run σ :=
  { importLoop W recreateCardsBool opts um cards w with
    header :=
      [Event.println "Importing trello cards into Clubhouse...",
        Event.printf (outputFormat ++ "\n") ["Trello Card Link", "Import Status", "Error/Story ID"]] }

/-- Everything a run did, in program order. -/
def Run.trace {σ : Type} (r : Run σ) : List Event :=
  r.header ++ r.perCard.flatten

/-! ## `export.go`: relocation of attachments to S3 -/

/-- Fields of `trello.Card` read by the relocators. -/
structure TrelloCard where
  Id : String
  IdList : String
  Name : String
deriving DecidableEq, Repr

/-- What the code reads of the `*http.Response` of `http.Get`: the body and the
`Content-Type` header. -/
structure HttpResponse where
  Body : String
  ContentType : String
deriving DecidableEq, Repr

/-- `s3manager.UploadInput` as the code fills it. -/
structure UploadInput where
  Bucket : String
  Key : String
  ACL : String
  Body : String
  ContentType : String
deriving DecidableEq, Repr

/-- The outside world of `downloadCardAttachmentsUploadToAWSS3`: the S3 client
(`s3api.Endpoint`, `s3api.HeadObject` on bucket and key, `uploader.Upload` giving
`result.Location`) and `http.Get`. A nil error is `none`. -/
structure S3World (σ : Type) where
  Endpoint : String
  HeadObject : String → String → σ → Option String × σ
  HttpGet : String → σ → (HttpResponse × Option String) × σ
  Upload : UploadInput → σ → (String × Option String) × σ

/-- What the S3 relocator does that is visible from outside, in program order. -/
inductive S3Event where
  | headObject (bucket key : String) (err : Option String)
  | httpGet (url : String) (err : Option String)
  | upload (input : UploadInput) (location : String) (err : Option String)
  | printf (format : String) (args : List String)
deriving DecidableEq, Repr

/-- The result of a step of the relocator: the map `fileIds`, the events in
order, and the world afterwards. -/
structure S3Res (σ : Type) where
  fileIds : List (String × TrAttachments)
  events : List S3Event
  world : σ

/-- One iteration of the `for i, f := range attachments` loop of
`downloadCardAttachmentsUploadToAWSS3`. -/
def relocateAttachment {σ : Type} (S : S3World σ) (awsS3Bucket : String) (card : TrelloCard)
    (i : Nat) (f : Attachment) (fileIds : List (String × TrAttachments)) (w : σ) : S3Res σ :=
  let name := safeFileName f.Name
  let path := s3Path card.IdList card.Id i name
  let h := S.HeadObject awsS3Bucket path w
  match h.1 with
  | some _ =>
    let g := S.HttpGet f.Url h.2
    match g.1.2 with
    | some gerr =>
      { fileIds := fileIds
        events :=
          [S3Event.headObject awsS3Bucket path h.1, S3Event.httpGet f.Url g.1.2,
            S3Event.printf "Error in download Trello attachment from %s, %s\n" [f.Url, gerr]]
        world := g.2 }
    | none =>
      let input : UploadInput :=
        { Bucket := awsS3Bucket, Key := path, ACL := "private", Body := g.1.1.Body,
          ContentType := g.1.1.ContentType }
      let u := S.Upload input g.2
      match u.1.2 with
      | some uerr =>
        { fileIds := fileIds
          events :=
            [S3Event.headObject awsS3Bucket path h.1, S3Event.httpGet f.Url g.1.2,
              S3Event.upload input u.1.1 u.1.2,
              S3Event.printf "Error occurred uploading file %s to AWS S3 continuing... %s\n"
                [path, uerr]]
          world := u.2 }
      | none =>
        { fileIds := mapSet fileIds name { Url := u.1.1, IDCreator := f.IdMember }
          events :=
            [S3Event.headObject awsS3Bucket path h.1, S3Event.httpGet f.Url g.1.2,
              S3Event.upload input u.1.1 u.1.2]
          world := u.2 }
  | none =>
    let s3keyURL := S.Endpoint ++ "/" ++ awsS3Bucket ++ path
    { fileIds := mapSet fileIds name { Url := s3keyURL, IDCreator := f.IdMember }
      events :=
        [S3Event.headObject awsS3Bucket path h.1,
          S3Event.printf "Skipped uploading file to AWS S3. File exist: %s\n" [s3keyURL]]
      world := h.2 }

/-- The `for i, f := range attachments` loop, from index `i` on. -/
def relocateLoop {σ : Type} (S : S3World σ) (awsS3Bucket : String) (card : TrelloCard) :
    Nat → List Attachment → List (String × TrAttachments) → σ → S3Res σ
  | _, [], fileIds, w => { fileIds := fileIds, events := [], world := w }
  | i, f :: rest, fileIds, w =>
    let r := relocateAttachment S awsS3Bucket card i f fileIds w
    let tl := relocateLoop S awsS3Bucket card (i + 1) rest r.fileIds r.world
    { tl with events := r.events ++ tl.events }

/-- `downloadCardAttachmentsUploadToAWSS3`, given what `card.Attachments()` and
`session.NewSessionWithOptions` returned (`attachments`/`attErr`, `sessErr`).
`none` is the exit through `log.Fatal`. -/
def downloadCardAttachmentsUploadToAWSS3 {σ : Type} (S : S3World σ) (awsS3Bucket : String)
    (card : TrelloCard) (attachments : List Attachment) (attErr sessErr : Option String)
    (w : σ) : Option (S3Res σ) :=
  if awsS3Bucket.length = 0 then none
  else if attErr.isSome then none
  else if sessErr.isSome then none
  else some (relocateLoop S awsS3Bucket card 0 attachments [] w)

/-! ## Reading a list of events -/

/-- The `CreateStory` calls among the events, in order: payload and result. -/
def createCalls (evs : List Event) : List (CreateStory × Story × Option String) :=
  evs.filterMap fun
    | Event.createStory p st err => some (p, st, err)
    | _ => none

/-- The ids `DeleteStory` was called with, in order. -/
def deleteCalls (evs : List Event) : List Int :=
  evs.filterMap fun
    | Event.deleteStory id _ => some id
    | _ => none

/-- The slices `ListStories` returned, in order. -/
def listings (evs : List Event) : List (List Story) :=
  evs.filterMap fun
    | Event.listStories _ stories => some stories
    | _ => none

/-- The status lines among the events, in order: the arguments of each print
with the format `outputFormat`. -/
def statusLines (evs : List Event) : List (List String) :=
  evs.filterMap fun
    | Event.printf format args => if format = outputFormat then some args else none
    | _ => none

/-- The status lines that report the outcome of a `CreateStory` call: those whose
status column is "Success" or "Failed". -/
def outcomeLines (evs : List Event) : List (List String) :=
  (statusLines evs).filter fun args => args[1]? = some "Success" ∨ args[1]? = some "Failed"

/-- The status line the driver prints after a `CreateStory` call on a card with
short URL `url` that returned `st` and `err`. -/
def outcomeLine (url : String) (st : Story) (err : Option String) : List String :=
  match err with
  | some e => [url, "Failed", e]
  | none => [url, "Success", "Story ID: " ++ toString st.ID]

/-- The downloads among the events of the S3 relocator. -/
def downloads (evs : List S3Event) : List String :=
  evs.filterMap fun
    | S3Event.httpGet url _ => some url
    | _ => none

/-- The uploads among the events of the S3 relocator. -/
def uploads (evs : List S3Event) : List UploadInput :=
  evs.filterMap fun
    | S3Event.upload input _ _ => some input
    | _ => none

/-- Events that are neither a `CreateStory` call, a `DeleteStory` call, a
`ListStories` call nor a status line. -/
def Quiet (evs : List Event) : Prop :=
  createCalls evs = [] ∧ deleteCalls evs = [] ∧ listings evs = [] ∧ statusLines evs = []

instance instDecidableQuiet (evs : List Event) : Decidable (Quiet evs) := by
  unfold Quiet
  infer_instance

/-! ## Concrete inputs -/

/-- A small Clubhouse for concrete runs: the stories it holds, the next id it
hands out, a clock, the story ids it refuses to delete and the story names it
refuses to create. -/
structure FakeClubhouse where
  stories : List Story
  nextID : Int
  clock : Int
  undeletable : List Int
  rejected : List String
deriving DecidableEq, Repr

/-- The client over `FakeClubhouse`. -/
def fakeWorld : World FakeClubhouse where
  ListStories := fun _ w => (w.stories, w)
  DeleteStory := fun id w =>
    if id ∈ w.undeletable then (some "API Returned HTTP Status Code of 500", w)
    else (none, { w with stories := w.stories.filter (fun s => s.ID ≠ id) })
  CreateStory := fun p w =>
    if p.Name ∈ w.rejected then
      (({ ID := 0, Name := "" }, some "API Returned HTTP Status Code of 400"), w)
    else
      (({ ID := w.nextID, Name := p.Name }, none),
        { w with stories := w.stories ++ [{ ID := w.nextID, Name := p.Name }]
                 nextID := w.nextID + 1 })
  CreateLinkedFiles := fun _ w => (({ ID := w.nextID }, none), { w with nextID := w.nextID + 1 })
  Now := fun w => ({ unixNano := w.clock }, { w with clock := w.clock + 1 })

/-- Options of the concrete runs. -/
def demoOpts : ClubhouseOptions :=
  { Project := { ID := 1 }, State := { ID := 500 }, StoryType := "bug",
    AddCommentWithTrelloLink := true }

/-- An identity map with one entry. -/
def demoUsers : UserMap :=
  { entries := [("trello-ann", "ch-ann")], fallback := "ch-import" }

/-- The card of the spec's end-to-end scenario: two owners (one mapped, one
not), one comment, one completed checklist item. -/
def loginCard : Card :=
  { Name := "Fix login bug", Desc := "", Labels := [], DueDate := none,
    IDCreator := "trello-ann", IDOwners := ["trello-ann", "trello-zed"],
    CreatedAt := some { unixNano := 10 },
    Comments := [{ Text := "seen on prod", IDCreator := "trello-ann", CreatorName := "Ann",
                   CreatedAt := some { unixNano := 20 } }],
    Tasks := [{ Completed := true, Description := "QA - retest" }],
    Position := 0, ShortURL := "https://trello.com/c/abc", Attachments := [] }

/-- A second card. -/
def signupCard : Card :=
  { loginCard with Name := "Fix signup", ShortURL := "https://trello.com/c/def" }

/-- The login card with a comment whose date did not parse
(`parseDateOrReturnNil` gave nil). -/
def undatedCard : Card :=
  { loginCard with
    Comments := [{ Text := "no date", IDCreator := "trello-ann", CreatorName := "Ann",
                   CreatedAt := none }] }

/-- An action log whose one comment action carries a date that does not parse
(the empty string): what the normaliser reads for `undatedCard`. -/
def undatedLog : List Action :=
  [ { Typ := "createCard", Date := "2017-03-01T10:00:00.000Z", Data := { Text := "" },
      MemberCreator := { Id := "trello-ann", FullName := "Ann" } },
    { Typ := "commentCard", Date := "", Data := { Text := "no date" },
      MemberCreator := { Id := "trello-ann", FullName := "Ann" } } ]

/-- An empty Clubhouse. -/
def emptyHouse : FakeClubhouse :=
  { stories := [], nextID := 100, clock := 1000, undeletable := [], rejected := [] }

/-- A Clubhouse that already holds two stories named like `loginCard` and one
other story, and refuses to delete story 7. -/
def busyHouse : FakeClubhouse :=
  { stories := [{ ID := 7, Name := "Fix login bug" }, { ID := 8, Name := "Other" },
                { ID := 9, Name := "Fix login bug" }],
    nextID := 100, clock := 1000, undeletable := [7], rejected := [] }


/-- The number written by a list of decimal digits, `none` when a character is
not a digit. -/
def decimalValue (cs : List Char) : Option Nat :=
  if cs.all Char.isDigit then some (cs.foldl (fun n c => 10 * n + (c.toNat - 48)) 0) else none

/-- The number of days of a month of the Gregorian calendar. -/
def daysIn (year month : Nat) : Nat :=
  if month = 2 then
    if (year % 4 = 0 ∧ year % 100 ≠ 0) ∨ year % 400 = 0 then 29 else 28
  else if month = 4 ∨ month = 6 ∨ month = 9 ∨ month = 11 then 30
  else 31

/-- The number of days from 1970-01-01 to a date of the Gregorian calendar
(years are counted from March and shifted by one 400-year era, which the last
term takes back). -/
def daysFromEpoch (year month day : Nat) : Int :=
  let y := if month ≤ 2 then year + 399 else year + 400
  let mp := if month ≤ 2 then month + 9 else month - 3
  let doy := (153 * mp + 2) / 5 + day - 1
  let doe := (y % 400) * 365 + (y % 400) / 4 - (y % 400) / 100 + doy
  (((y / 400) * 146097 + doe : Nat) : Int) - 719468 - 146097

/-- A stand-in for `time.Parse` with the layout `dateLayout` on concrete inputs.
It accepts the values written exactly as the layout is,
`YYYY-MM-DDTHH:MM:SS.mmmZ` with a date and a time of day that exist, and gives
their instant in UTC; every other value, the empty string among them, is a
parse error. -/
def stubTimeParse (_layout value : String) : Except String Time :=
  match value.data with
  | [y1, y2, y3, y4, a, m1, m2, b, d1, d2, t, h1, h2, c, n1, n2, e, s1, s2, p, f1, f2, f3, z] =>
    match decimalValue [y1, y2, y3, y4], decimalValue [m1, m2], decimalValue [d1, d2],
      decimalValue [h1, h2], decimalValue [n1, n2], decimalValue [s1, s2],
      decimalValue [f1, f2, f3] with
    | some year, some month, some day, some hour, some minute, some second, some milli =>
      if [a, b, t, c, e, p, z] = ['-', '-', 'T', ':', ':', '.', 'Z'] ∧ 1 ≤ month ∧ month ≤ 12 ∧
          1 ≤ day ∧ day ≤ daysIn year month ∧ hour < 24 ∧ minute < 60 ∧ second < 60 then
        Except.ok
          { unixNano :=
              (daysFromEpoch year month day * 86400 + hour * 3600 + minute * 60 + second) *
                1000000000 + milli * 1000000 }
      else Except.error "parsing time: out of range"
    | _, _, _, _, _, _, _ => Except.error "parsing time: cannot parse"
  | _ => Except.error "parsing time: cannot parse"

/-- An action log with two `createCard` actions, by different members at
different dates, around a comment. -/
def twoCreationsLog : List Action :=
  [ { Typ := "createCard", Date := "2017-03-01T10:00:00.000Z", Data := { Text := "" },
      MemberCreator := { Id := "alice", FullName := "Alice" } },
    { Typ := "commentCard", Date := "2017-03-02T09:30:00.000Z", Data := { Text := "hello" },
      MemberCreator := { Id := "carol", FullName := "Carol" } },
    { Typ := "createCard", Date := "2017-03-05T08:15:00.250Z", Data := { Text := "" },
      MemberCreator := { Id := "bob", FullName := "Bob" } } ]

/-- The card whose attachment is relocated in the concrete S3 runs. -/
def shotCard : TrelloCard :=
  { Id := "C1", IdList := "L1", Name := "Fix login bug" }

/-- Its attachment. -/
def shotAttachment : Attachment :=
  { Name := "shot 1.png", Url := "https://trello.example/att/1", IdMember := "trello-ann" }

/-- A small object store for concrete runs; the state is the list of keys it
holds. `HeadObject` succeeds on the keys held, `Upload` stores the key and
reports a location in the virtual-hosted style, and the client's endpoint is the
plain service address. -/
def fakeS3 : S3World (List String) where
  Endpoint := "https://s3.amazonaws.com"
  HeadObject := fun _ key w => if key ∈ w then (none, w) else (some "NotFound", w)
  HttpGet := fun _ w => (({ Body := "PNG", ContentType := "image/png" }, none), w)
  Upload := fun input w =>
    (("https://" ++ input.Bucket ++ ".s3.amazonaws.com" ++ input.Key, none), input.Key :: w)

/-- The first relocation of `shotAttachment`, into the empty store. -/
def firstRun : Option (S3Res (List String)) :=
  downloadCardAttachmentsUploadToAWSS3 fakeS3 "bkt" shotCard [shotAttachment] none none []

/-- The second relocation of `shotAttachment`, into the store the first run
left. -/
def secondRun : Option (S3Res (List String)) :=
  firstRun.bind fun r =>
    downloadCardAttachmentsUploadToAWSS3 fakeS3 "bkt" shotCard [shotAttachment] none none r.world

/-! # Properties -/

/-! ## The card normaliser -/

theorem scanAction_foldl_comments (timeParse : String → String → Except String Time)
    (actions : List Action) (st : ScanState) :
    (actions.foldl (scanAction timeParse) st).comments =
      st.comments ++ actions.filterMap (fun a =>
        if a.Typ = "commentCard" ∧ a.Data.Text ≠ "" then
          some { Text := a.Data.Text
                 IDCreator := a.MemberCreator.Id
                 CreatorName := a.MemberCreator.FullName
                 CreatedAt := parseDateOrReturnNil timeParse a.Date }
        else none) := by
  induction actions generalizing st with
  | nil => simp
  | cons a rest ih =>
    rw [List.foldl_cons, ih]
    by_cases h : a.Typ = "commentCard" ∧ a.Data.Text ≠ ""
    · simp [scanAction, h, List.filterMap_cons]
    · by_cases h2 : a.Typ = "createCard"
      · simp [scanAction, h, h2, List.filterMap_cons]
      · simp [scanAction, h, h2, List.filterMap_cons]

/-- C4: the comments returned by `getCommentsAndCardCreator` are, in log order,
one `Comment` for each action of type "commentCard" with non-empty text, carrying
that action's text, creator id and creator full name (and the parse of its
date); every other action contributes nothing. -/
theorem getCommentsAndCardCreator_comments
    (timeParse : String → String → Except String Time) (actions : List Action) :
    (getCommentsAndCardCreator timeParse actions).2.2 =
      actions.filterMap (fun a =>
        if a.Typ = "commentCard" ∧ a.Data.Text ≠ "" then
          some { Text := a.Data.Text
                 IDCreator := a.MemberCreator.Id
                 CreatorName := a.MemberCreator.FullName
                 CreatedAt := parseDateOrReturnNil timeParse a.Date }
        else none) := by
  show (actions.foldl (scanAction timeParse)
    { creator := "", createdAt := none, comments := [] }).comments = _
  rw [scanAction_foldl_comments]
  exact List.nil_append _

theorem scanAction_createCard (timeParse : String → String → Except String Time)
    (st : ScanState) (a : Action) (h : a.Typ = "createCard") :
    (scanAction timeParse st a).creator = a.MemberCreator.Id ∧
      (scanAction timeParse st a).createdAt = parseDateOrReturnNil timeParse a.Date := by
  have hne : ¬ (a.Typ = "commentCard" ∧ a.Data.Text ≠ "") := by
    rw [h]; intro hc; exact absurd hc.1 (by decide)
  simp [scanAction, hne, h]

theorem scanAction_other (timeParse : String → String → Except String Time)
    (st : ScanState) (a : Action) (h : a.Typ ≠ "createCard") :
    (scanAction timeParse st a).creator = st.creator ∧
      (scanAction timeParse st a).createdAt = st.createdAt := by
  by_cases hc : a.Typ = "commentCard" ∧ a.Data.Text ≠ ""
  · simp [scanAction, hc]
  · simp [scanAction, hc, h]

/-- C5, as the code has it: when the log has an action of type "createCard", the
creator identifier and the creation timestamp returned by
`getCommentsAndCardCreator` are those of the last such action in the log (the
only one, when there is one). -/
theorem getCommentsAndCardCreator_last_createCard
    (timeParse : String → String → Except String Time) (actions : List Action) (a : Action)
    (h : (actions.filter (fun x => x.Typ = "createCard")).getLast? = some a) :
    (getCommentsAndCardCreator timeParse actions).1 = a.MemberCreator.Id ∧
      (getCommentsAndCardCreator timeParse actions).2.1 =
        parseDateOrReturnNil timeParse a.Date := by
  simp only [getCommentsAndCardCreator]
  induction actions using List.reverseRecOn with
  | nil => simp at h
  | append_singleton init x ih =>
    rw [List.foldl_append, List.foldl_cons, List.foldl_nil]
    by_cases hx : x.Typ = "createCard"
    · have hax : a = x := by
        simpa [List.filter_append, List.filter_cons, hx] using h.symm
      subst hax
      exact scanAction_createCard timeParse _ a hx
    · have hinit : (init.filter (fun x => x.Typ = "createCard")).getLast? = some a := by
        simpa [List.filter_append, List.filter_cons, hx] using h
      have := scanAction_other timeParse
        (init.foldl (scanAction timeParse) { creator := "", createdAt := none, comments := [] }) x hx
      rw [this.1, this.2]
      exact ih hinit

/-- Witness for C5 as amended: in `twoCreationsLog` the last "createCard" action
is the one by "bob". -/
theorem getCommentsAndCardCreator_last_createCard_witness :
    (getCommentsAndCardCreator stubTimeParse twoCreationsLog).1 = "bob" ∧
      (getCommentsAndCardCreator stubTimeParse twoCreationsLog).2.1 =
        parseDateOrReturnNil stubTimeParse "2017-03-05T08:15:00.250Z" :=
  getCommentsAndCardCreator_last_createCard stubTimeParse twoCreationsLog
    { Typ := "createCard", Date := "2017-03-05T08:15:00.250Z", Data := { Text := "" },
      MemberCreator := { Id := "bob", FullName := "Bob" } } (by decide)

/-- C5 as stated fails: in `twoCreationsLog` the first "createCard" action is by
"alice" on 2017-03-01 at 10:00, and `getCommentsAndCardCreator` returns "bob" and
the instant of the later action, 2017-03-05 at 08:15:00.250. -/
theorem getCommentsAndCardCreator_not_first_createCard :
    (twoCreationsLog.find? (fun x => x.Typ = "createCard")).map
        (fun a => (a.MemberCreator.Id, a.Date)) =
        some ("alice", "2017-03-01T10:00:00.000Z") ∧
      (getCommentsAndCardCreator stubTimeParse twoCreationsLog).1 = "bob" ∧
      (getCommentsAndCardCreator stubTimeParse twoCreationsLog).2.1 =
        some { unixNano := 1488701700250000000 } ∧
      parseDateOrReturnNil stubTimeParse "2017-03-01T10:00:00.000Z" =
        some { unixNano := 1488362400000000000 } := by
  decide

theorem checklist_inner_foldl (cl : Checklist) (items : List CheckItem) (acc : List Task) :
    items.foldl (fun tasks i => tasks ++ [taskOfItem cl i]) acc =
      acc ++ items.map (taskOfItem cl) := by
  induction items generalizing acc with
  | nil => simp
  | cons i rest ih => simp [ih]

theorem checklist_outer_foldl (checklists : List Checklist) (acc : List Task) :
    checklists.foldl
        (fun tasks cl => cl.CheckItems.foldl (fun tasks i => tasks ++ [taskOfItem cl i]) tasks) acc =
      acc ++ checklists.flatMap (fun cl => cl.CheckItems.map (taskOfItem cl)) := by
  induction checklists generalizing acc with
  | nil => simp
  | cons cl rest ih =>
    rw [List.foldl_cons, ih, checklist_inner_foldl, List.flatMap_cons, List.append_assoc]

/-- C6: `getCheckListsForCard` returns one `Task` per checklist item, in checklist
order then item order, with `Description` the checklist name, " - ", the item
name, and `Completed` true exactly when the item's `State` is "complete"; so the
number of tasks is the total number of items. -/
theorem getCheckListsForCard_tasks (checklists : List Checklist) :
    getCheckListsForCard checklists =
        checklists.flatMap (fun cl => cl.CheckItems.map (fun i =>
          { Completed := decide (i.State = "complete")
            Description := cl.Name ++ " - " ++ i.Name })) ∧
      (getCheckListsForCard checklists).length =
        (checklists.map (fun cl => cl.CheckItems.length)).sum := by
  have hspec : getCheckListsForCard checklists =
      checklists.flatMap (fun cl => cl.CheckItems.map (fun i =>
        ({ Completed := decide (i.State = "complete")
           Description := cl.Name ++ " - " ++ i.Name } : Task))) := by
    have htask : ∀ cl : Checklist, taskOfItem cl = fun i =>
        { Completed := decide (i.State = "complete")
          Description := cl.Name ++ " - " ++ i.Name } := by
      intro cl
      funext i
      by_cases h : i.State = "complete" <;> simp [taskOfItem, h]
    unfold getCheckListsForCard
    rw [checklist_outer_foldl, List.nil_append]
    simp only [htask]
  refine ⟨hspec, ?_⟩
  rw [hspec]
  clear hspec
  induction checklists with
  | nil => simp
  | cons cl rest ih => simp only [List.flatMap_cons, List.length_append, List.length_map,
      List.map_cons, List.sum_cons, ih]

/-! ## The story builder -/

theorem buildCommentsLoop_dated (um : UserMap) (cms : List Comment) (acc : List CreateComment)
    (h : ∀ cm ∈ cms, cm.CreatedAt ≠ none) :
    ∃ mapped : List CreateComment,
      buildCommentsLoop um cms acc = some (acc ++ mapped) ∧
      mapped.map (fun cc => (cc.Text, some cc.CreatedAt, cc.AuthorID)) =
        cms.map (fun cm => (cm.Text, cm.CreatedAt, um.GetCreator cm.IDCreator)) := by
  induction cms generalizing acc with
  | nil => exact ⟨[], by simp [buildCommentsLoop]⟩
  | cons cm rest ih =>
    have hrest : ∀ x ∈ rest, x.CreatedAt ≠ none := fun x hx => h x (List.mem_cons_of_mem _ hx)
    have hcm : cm.CreatedAt ≠ none := h cm (List.mem_cons_self _ _)
    obtain ⟨t, ht⟩ := Option.ne_none_iff_exists'.mp hcm
    obtain ⟨mapped, hm, hmap⟩ := ih
      (acc ++ [{ CreatedAt := t, AuthorID := um.GetCreator cm.IDCreator, Text := cm.Text }]) hrest
    refine ⟨{ CreatedAt := t, AuthorID := um.GetCreator cm.IDCreator, Text := cm.Text } :: mapped,
      ?_, ?_⟩
    · simp only [buildCommentsLoop, ht]
      rw [hm, List.append_assoc, List.singleton_append]
    · simp [hmap, ht]

/-- C7: on a card whose comments all have a creation timestamp, `buildComments`
returns one `CreateComment` per comment, in order, with the comment's text, its
timestamp and the identity-map resolution of its creator as `AuthorID`; followed,
when `addCommentWithTrelloLink` is true, by exactly one more element, with text
"Card imported from Trello: " and the card's `ShortURL`, an empty `AuthorID` and
the current time, and by nothing when it is false. -/
theorem buildComments_dated {σ : Type} (W : World σ) (card : Card)
    (addCommentWithTrelloLink : Bool) (um : UserMap) (w : σ)
    (h : ∀ cm ∈ card.Comments, cm.CreatedAt ≠ none) :
    ∃ mapped : List CreateComment,
      (buildComments W card addCommentWithTrelloLink um w).val =
        some (mapped ++
          if addCommentWithTrelloLink = true then
            [{ CreatedAt := (W.Now w).1, AuthorID := ""
               Text := "Card imported from Trello: " ++ card.ShortURL }]
          else []) ∧
      mapped.map (fun cc => (cc.Text, some cc.CreatedAt, cc.AuthorID)) =
        card.Comments.map (fun cm => (cm.Text, cm.CreatedAt, um.GetCreator cm.IDCreator)) := by
  obtain ⟨mapped, hm, hmap⟩ := buildCommentsLoop_dated um card.Comments [] h
  refine ⟨mapped, ?_, hmap⟩
  rw [List.nil_append] at hm
  simp only [buildComments, hm]
  cases addCommentWithTrelloLink <;> simp

/-- Witness for C7: `loginCard`, whose one comment is dated, with the link
comment asked for. -/
theorem buildComments_dated_witness :
    (∀ cm ∈ loginCard.Comments, cm.CreatedAt ≠ none) ∧
      ∃ mapped : List CreateComment,
        (buildComments fakeWorld loginCard true demoUsers emptyHouse).val =
          some (mapped ++
            if true = true then
              [{ CreatedAt := (fakeWorld.Now emptyHouse).1, AuthorID := ""
                 Text := "Card imported from Trello: " ++ loginCard.ShortURL }]
            else []) ∧
        mapped.map (fun cc => (cc.Text, some cc.CreatedAt, cc.AuthorID)) =
          loginCard.Comments.map
            (fun cm => (cm.Text, cm.CreatedAt, demoUsers.GetCreator cm.IDCreator)) :=
  ⟨by decide, buildComments_dated fakeWorld loginCard true demoUsers emptyHouse (by decide)⟩

/-! ## The migration driver -/

theorem createCalls_append (a b : List Event) :
    createCalls (a ++ b) = createCalls a ++ createCalls b := by
  simp [createCalls, List.filterMap_append]

theorem deleteCalls_append (a b : List Event) :
    deleteCalls (a ++ b) = deleteCalls a ++ deleteCalls b := by
  simp [deleteCalls, List.filterMap_append]

theorem listings_append (a b : List Event) :
    listings (a ++ b) = listings a ++ listings b := by
  simp [listings, List.filterMap_append]

theorem statusLines_append (a b : List Event) :
    statusLines (a ++ b) = statusLines a ++ statusLines b := by
  simp [statusLines, List.filterMap_append]

theorem outcomeLines_append (a b : List Event) :
    outcomeLines (a ++ b) = outcomeLines a ++ outcomeLines b := by
  simp [outcomeLines, statusLines_append]

theorem Quiet.nil : Quiet [] := by
  simp [Quiet, createCalls, deleteCalls, listings, statusLines]

theorem Quiet.append {a b : List Event} (ha : Quiet a) (hb : Quiet b) : Quiet (a ++ b) := by
  obtain ⟨a1, a2, a3, a4⟩ := ha
  obtain ⟨b1, b2, b3, b4⟩ := hb
  simp [Quiet, createCalls_append, deleteCalls_append, listings_append, statusLines_append,
    a1, a2, a3, a4, b1, b2, b3, b4]

theorem Quiet.outcomeLines {a : List Event} (ha : Quiet a) : outcomeLines a = [] := by
  simp [TrelloToClubhouse.outcomeLines, ha.2.2.2]

theorem getStoryDuplicates_foldl (name : String) (stories : List Story) (acc : List Int) :
    stories.foldl (fun dupes story => if story.Name = name then dupes ++ [story.ID] else dupes) acc =
      acc ++ (stories.filter (fun s => s.Name = name)).map (fun s => s.ID) := by
  induction stories generalizing acc with
  | nil => simp
  | cons s rest ih =>
    rw [List.foldl_cons, ih]
    by_cases h : s.Name = name <;> simp [h, List.filter_cons]

theorem getStoryDuplicates_val {σ : Type} (W : World σ) (opts : ClubhouseOptions) (card : Card)
    (w : σ) :
    (getStoryDuplicates W opts card w).val =
      ((W.ListStories opts.Project.ID w).1.filter (fun s => s.Name = card.Name)).map
        (fun s => s.ID) := by
  simp [getStoryDuplicates, getStoryDuplicates_foldl]

theorem buildLinkFilesLoop_quiet {σ : Type} (W : World σ) (card : Card) (um : UserMap)
    (atts : List (String × TrAttachments)) (ids : List Int) (w : σ) :
    Quiet (buildLinkFilesLoop W card um atts ids w).events := by
  induction atts generalizing ids w with
  | nil => simpa [buildLinkFilesLoop] using Quiet.nil
  | cons a rest ih =>
    obtain ⟨k, v⟩ := a
    simp only [buildLinkFilesLoop]
    split
    · refine Quiet.append ?_ (ih _ _)
      simp [Quiet, createCalls, deleteCalls, listings, statusLines]
    · refine Quiet.append ?_ (ih _ _)
      simp [Quiet, createCalls, deleteCalls, listings, statusLines]

theorem buildComments_events {σ : Type} (W : World σ) (card : Card) (b : Bool) (um : UserMap)
    (w : σ) : (buildComments W card b um w).events = [] := by
  unfold buildComments
  split
  · rfl
  · split <;> rfl

theorem buildClubhouseStory_quiet {σ : Type} (W : World σ) (card : Card)
    (opts : ClubhouseOptions) (um : UserMap) (w : σ) :
    Quiet (buildClubhouseStory W card opts um w).events := by
  simp only [buildClubhouseStory]
  split
  · simpa [buildComments_events] using Quiet.nil
  · simpa [buildComments_events, buildLinkFiles] using buildLinkFilesLoop_quiet W card um _ _ _

theorem buildClubhouseStory_payload {σ : Type} (W : World σ) (card : Card)
    (opts : ClubhouseOptions) (um : UserMap) (w : σ) (p : CreateStory)
    (h : (buildClubhouseStory W card opts um w).val = some p) :
    p.OwnerIds = mapOwnersFromTrelloCard card um ∧ p.Name = card.Name := by
  simp only [buildClubhouseStory] at h
  split at h
  · simp at h
  · simp only [Option.some.injEq] at h
    subst h
    exact ⟨rfl, rfl⟩

theorem buildClubhouseStory_dated {σ : Type} (W : World σ) (card : Card)
    (opts : ClubhouseOptions) (um : UserMap) (w : σ)
    (h : ∀ cm ∈ card.Comments, cm.CreatedAt ≠ none) :
    ∃ p, (buildClubhouseStory W card opts um w).val = some p := by
  obtain ⟨mapped, hm, -⟩ := buildCommentsLoop_dated um card.Comments [] h
  have hval : ∃ comments,
      (buildComments W card opts.AddCommentWithTrelloLink um w).val = some comments := by
    simp only [buildComments, hm]
    split <;> exact ⟨_, rfl⟩
  obtain ⟨comments, hc⟩ := hval
  simp only [buildClubhouseStory, hc]
  exact ⟨_, rfl⟩

theorem readings_after_create (pre : List Event) (hpre : Quiet pre) (url : String)
    (p : CreateStory) (st : Story) (err : Option String) :
    createCalls (pre ++ [Event.createStory p st err,
        Event.printf outputFormat (outcomeLine url st err)]) = [(p, st, err)] ∧
      deleteCalls (pre ++ [Event.createStory p st err,
        Event.printf outputFormat (outcomeLine url st err)]) = [] ∧
      listings (pre ++ [Event.createStory p st err,
        Event.printf outputFormat (outcomeLine url st err)]) = [] ∧
      outcomeLines (pre ++ [Event.createStory p st err,
        Event.printf outputFormat (outcomeLine url st err)]) = [outcomeLine url st err] ∧
      statusLines (pre ++ [Event.createStory p st err,
        Event.printf outputFormat (outcomeLine url st err)]) = [outcomeLine url st err] := by
  obtain ⟨h1, h2, h3, h4⟩ := hpre
  refine ⟨?_, ?_, ?_, ?_, ?_⟩
  · rw [createCalls_append, h1]; simp [createCalls]
  · rw [deleteCalls_append, h2]; simp [deleteCalls]
  · rw [listings_append, h3]; simp [listings]
  · rw [outcomeLines_append, Quiet.outcomeLines ⟨h1, h2, h3, h4⟩]
    cases err <;> simp [outcomeLines, statusLines, outcomeLine]
  · rw [statusLines_append, h4]; simp [statusLines]

theorem createAndReport_cases {σ : Type} (W : World σ) (c : Card) (opts : ClubhouseOptions)
    (um : UserMap) (w : σ) :
    ((createAndReport W c opts um w).val = false ∧
        Quiet (createAndReport W c opts um w).events ∧
        (buildClubhouseStory W c opts um w).val = none) ∨
      ∃ pre p st err,
        (createAndReport W c opts um w).val = true ∧
        (createAndReport W c opts um w).events =
          pre ++ [Event.createStory p st err,
            Event.printf outputFormat (outcomeLine c.ShortURL st err)] ∧
        Quiet pre ∧ p.OwnerIds = mapOwnersFromTrelloCard c um ∧ p.Name = c.Name := by
  cases hb : (buildClubhouseStory W c opts um w).val with
  | none =>
    left
    have hq := buildClubhouseStory_quiet W c opts um w
    refine ⟨?_, ?_, rfl⟩
    · simp only [createAndReport, hb]
    · simpa only [createAndReport, hb] using hq
  | some p =>
    right
    have hq := buildClubhouseStory_quiet W c opts um w
    have hp := buildClubhouseStory_payload W c opts um w p hb
    refine ⟨(buildClubhouseStory W c opts um w).events, p,
      (W.CreateStory p (buildClubhouseStory W c opts um w).world).1.1,
      (W.CreateStory p (buildClubhouseStory W c opts um w).world).1.2, ?_, ?_, hq, hp.1, hp.2⟩
    · simp only [createAndReport, hb]
      split <;> rfl
    · simp only [createAndReport, hb]
      split
      · rename_i e he
        simp [he, outcomeLine]
      · rename_i he
        simp [he, outcomeLine]

theorem deleteDuplicates_readings {σ : Type} (W : World σ) (c : Card) (ids : List Int) (w : σ) :
    deleteCalls (deleteDuplicates W c ids w).events = ids ∧
      createCalls (deleteDuplicates W c ids w).events = [] ∧
      listings (deleteDuplicates W c ids w).events = [] ∧
      outcomeLines (deleteDuplicates W c ids w).events = [] := by
  induction ids generalizing w with
  | nil => simp [deleteDuplicates, deleteCalls, createCalls, listings, outcomeLines, statusLines]
  | cons id rest ih =>
    obtain ⟨h1, h2, h3, h4⟩ := ih (W.DeleteStory id w).2
    simp only [deleteDuplicates]
    split
    · refine ⟨?_, ?_, ?_, ?_⟩
      · rw [deleteCalls_append, h1]; simp [deleteCalls]
      · rw [createCalls_append, h2]; simp [createCalls]
      · rw [listings_append, h3]; simp [listings]
      · rw [outcomeLines_append, h4]; simp [outcomeLines, statusLines]
    · refine ⟨?_, ?_, ?_, ?_⟩
      · rw [← List.singleton_append, deleteCalls_append, h1]; simp [deleteCalls]
      · rw [← List.singleton_append, createCalls_append, h2]; simp [createCalls]
      · rw [← List.singleton_append, listings_append, h3]; simp [listings]
      · rw [← List.singleton_append, outcomeLines_append, h4]; simp [outcomeLines, statusLines]

theorem importCard_allowDupes {σ : Type} (W : World σ) (opts : ClubhouseOptions) (um : UserMap)
    (card : Card) (w : σ) :
    (importCard W exitsCardBehavior.AllowDupes opts um card w).events =
        (createAndReport W { card with IDOwners := [] } opts um w).events ∧
      (importCard W exitsCardBehavior.AllowDupes opts um card w).val =
        (createAndReport W { card with IDOwners := [] } opts um w).val := by
  simp [importCard]

theorem importCard_deleteExists {σ : Type} (W : World σ) (opts : ClubhouseOptions)
    (um : UserMap) (card : Card) (w : σ) :
    ∃ w1 w2,
      (importCard W exitsCardBehavior.DeleteExists opts um card w).events =
        Event.listStories opts.Project.ID (W.ListStories opts.Project.ID w).1 ::
          ((deleteDuplicates W { card with IDOwners := [] }
              (((W.ListStories opts.Project.ID w).1.filter (fun s => s.Name = card.Name)).map
                (fun s => s.ID)) w1).events ++
            (createAndReport W { card with IDOwners := [] } opts um w2).events) ∧
      (importCard W exitsCardBehavior.DeleteExists opts um card w).val =
        (createAndReport W { card with IDOwners := [] } opts um w2).val := by
  refine ⟨(W.ListStories opts.Project.ID w).2, _, ?_, rfl⟩
  simp [importCard, getStoryDuplicates_val]
  simp [getStoryDuplicates]

theorem importCard_skipExists_dup {σ : Type} (W : World σ) (opts : ClubhouseOptions)
    (um : UserMap) (card : Card) (w : σ)
    (h : ∃ s ∈ (W.ListStories opts.Project.ID w).1, s.Name = card.Name) :
    (importCard W exitsCardBehavior.SkipExists opts um card w).events =
        [Event.listStories opts.Project.ID (W.ListStories opts.Project.ID w).1] ∧
      (importCard W exitsCardBehavior.SkipExists opts um card w).val = true := by
  have hlen : 0 < (getStoryDuplicates W opts { card with IDOwners := [] } w).val.length := by
    rw [getStoryDuplicates_val, List.length_map, List.length_pos]
    obtain ⟨s, hs, hn⟩ := h
    exact List.ne_nil_of_mem (List.mem_filter.mpr ⟨hs, by simpa using hn⟩)
  simp [importCard, hlen]
  simp [getStoryDuplicates]

theorem importCard_skipExists_fresh {σ : Type} (W : World σ) (opts : ClubhouseOptions)
    (um : UserMap) (card : Card) (w : σ)
    (h : ¬ ∃ s ∈ (W.ListStories opts.Project.ID w).1, s.Name = card.Name) :
    (importCard W exitsCardBehavior.SkipExists opts um card w).events =
        Event.listStories opts.Project.ID (W.ListStories opts.Project.ID w).1 ::
          (createAndReport W { card with IDOwners := [] } opts um
            (W.ListStories opts.Project.ID w).2).events ∧
      (importCard W exitsCardBehavior.SkipExists opts um card w).val =
        (createAndReport W { card with IDOwners := [] } opts um
          (W.ListStories opts.Project.ID w).2).val := by
  have hlen : (getStoryDuplicates W opts { card with IDOwners := [] } w).val.length = 0 := by
    rw [getStoryDuplicates_val, List.length_map, List.length_eq_zero, List.filter_eq_nil_iff]
    intro s hs hn
    exact h ⟨s, hs, by simpa using hn⟩
  simp [importCard, hlen]
  simp [getStoryDuplicates]

theorem createAndReport_readings {σ : Type} (W : World σ) (c : Card) (opts : ClubhouseOptions)
    (um : UserMap) (w : σ) :
    deleteCalls (createAndReport W c opts um w).events = [] ∧
      listings (createAndReport W c opts um w).events = [] ∧
      (createCalls (createAndReport W c opts um w).events).length ≤ 1 ∧
      (∀ x ∈ createCalls (createAndReport W c opts um w).events,
        x.1.OwnerIds = mapOwnersFromTrelloCard c um ∧ x.1.Name = c.Name) ∧
      outcomeLines (createAndReport W c opts um w).events =
        (createCalls (createAndReport W c opts um w).events).map
          (fun x => outcomeLine c.ShortURL x.2.1 x.2.2) ∧
      statusLines (createAndReport W c opts um w).events =
        outcomeLines (createAndReport W c opts um w).events ∧
      ((createAndReport W c opts um w).val = true →
        (createCalls (createAndReport W c opts um w).events).length = 1) := by
  rcases createAndReport_cases W c opts um w with ⟨hv, hq, -⟩ | ⟨pre, p, st, err, hv, he, hq, ho, hn⟩
  · have ho := Quiet.outcomeLines hq
    obtain ⟨h1, h2, h3, h4⟩ := hq
    simp [h1, h2, h3, h4, ho, hv]
  · obtain ⟨h1, h2, h3, h4, h5⟩ := readings_after_create pre hq c.ShortURL p st err
    rw [he, h1, h2, h3, h4, h5]
    simp [ho, hn]

theorem importCard_val_dated {σ : Type} (W : World σ) (mode : exitsCardBehavior)
    (opts : ClubhouseOptions) (um : UserMap) (card : Card) (w : σ)
    (h : ∀ cm ∈ card.Comments, cm.CreatedAt ≠ none) :
    (importCard W mode opts um card w).val = true := by
  have hcar : ∀ w1, (createAndReport W { card with IDOwners := [] } opts um w1).val = true := by
    intro w1
    rcases createAndReport_cases W { card with IDOwners := [] } opts um w1 with
      ⟨-, -, hb⟩ | ⟨_, _, _, _, hv, -⟩
    · obtain ⟨p, hp⟩ := buildClubhouseStory_dated W { card with IDOwners := [] } opts um w1 h
      rw [hp] at hb
      exact absurd hb (by simp)
    · exact hv
  cases mode with
  | AllowDupes => rw [(importCard_allowDupes W opts um card w).2]; exact hcar _
  | DeleteExists =>
    obtain ⟨w1, w2, -, hv⟩ := importCard_deleteExists W opts um card w
    rw [hv]; exact hcar _
  | SkipExists =>
    by_cases hd : ∃ s ∈ (W.ListStories opts.Project.ID w).1, s.Name = card.Name
    · exact (importCard_skipExists_dup W opts um card w hd).2
    · rw [(importCard_skipExists_fresh W opts um card w hd).2]; exact hcar _

theorem importLoop_perCard_pos {σ : Type} (W : World σ) (mode : exitsCardBehavior)
    (opts : ClubhouseOptions) (um : UserMap) (c : Card) (rest : List Card) (w : σ) :
    0 < (importLoop W mode opts um (c :: rest) w).perCard.length := by
  simp only [importLoop]
  split <;> simp

theorem importLoop_get {σ : Type} (W : World σ) (mode : exitsCardBehavior)
    (opts : ClubhouseOptions) (um : UserMap) (cards : List Card) (w : σ) (i : Nat)
    (seg : List Event) (h : (importLoop W mode opts um cards w).perCard[i]? = some seg) :
    ∃ c w1, cards[i]? = some c ∧ seg = (importCard W mode opts um c w1).events ∧
      ((importCard W mode opts um c w1).val = true → i + 1 < cards.length →
        i + 1 < (importLoop W mode opts um cards w).perCard.length) := by
  induction cards generalizing w i with
  | nil => simp [importLoop] at h
  | cons c rest ih =>
    by_cases hv : (importCard W mode opts um c w).val = true
    · have hloop : (importLoop W mode opts um (c :: rest) w).perCard =
          (importCard W mode opts um c w).events ::
            (importLoop W mode opts um rest (importCard W mode opts um c w).world).perCard := by
        simp [importLoop, hv]
      rw [hloop] at h ⊢
      cases i with
      | zero =>
        refine ⟨c, w, by simp, by simpa using h.symm, ?_⟩
        intro _ hlen
        cases rest with
        | nil => simp at hlen
        | cons c2 rest2 =>
          have := importLoop_perCard_pos W mode opts um c2 rest2
            (importCard W mode opts um c w).world
          simpa using this
      | succ k =>
        obtain ⟨c1, w1, hc1, hseg, hnext⟩ := ih (importCard W mode opts um c w).world k
          (by simpa using h)
        refine ⟨c1, w1, by simpa using hc1, hseg, ?_⟩
        intro hval hlen
        have := hnext hval (by simpa using hlen)
        simpa using this
    · have hloop : (importLoop W mode opts um (c :: rest) w).perCard =
          [(importCard W mode opts um c w).events] := by
        simp [importLoop, hv]
      rw [hloop] at h ⊢
      cases i with
      | zero =>
        refine ⟨c, w, by simp, by simpa using h.symm, ?_⟩
        intro hval
        exact absurd hval hv
      | succ k => simp at h

theorem importLoop_dated {σ : Type} (W : World σ) (mode : exitsCardBehavior)
    (opts : ClubhouseOptions) (um : UserMap) (cards : List Card) (w : σ)
    (h : ∀ c ∈ cards, ∀ cm ∈ c.Comments, cm.CreatedAt ≠ none) :
    (importLoop W mode opts um cards w).panicked = false ∧
      (importLoop W mode opts um cards w).perCard.length = cards.length := by
  induction cards generalizing w with
  | nil => simp [importLoop]
  | cons c rest ih =>
    have hv := importCard_val_dated W mode opts um c w (h c (List.mem_cons_self _ _))
    obtain ⟨h1, h2⟩ := ih (importCard W mode opts um c w).world
      (fun x hx => h x (List.mem_cons_of_mem _ hx))
    simp [importLoop, hv, h1, h2]

theorem importLoop_head {σ : Type} (W : World σ) (mode : exitsCardBehavior)
    (opts : ClubhouseOptions) (um : UserMap) (c : Card) (rest : List Card) (w : σ) :
    (importLoop W mode opts um (c :: rest) w).perCard[0]? =
      some (importCard W mode opts um c w).events := by
  simp only [importLoop]
  split <;> simp

theorem importLoop_get_next {σ : Type} (W : World σ) (mode : exitsCardBehavior)
    (opts : ClubhouseOptions) (um : UserMap) (cards : List Card) (w : σ) (i : Nat)
    (seg : List Event) (h : (importLoop W mode opts um cards w).perCard[i]? = some seg) :
    ∃ c w1, cards[i]? = some c ∧ seg = (importCard W mode opts um c w1).events ∧
      ((importCard W mode opts um c w1).val = true → ∀ c2, cards[i + 1]? = some c2 →
        (importLoop W mode opts um cards w).perCard[i + 1]? =
          some (importCard W mode opts um c2 (importCard W mode opts um c w1).world).events) := by
  induction cards generalizing w i with
  | nil => simp [importLoop] at h
  | cons c rest ih =>
    by_cases hv : (importCard W mode opts um c w).val = true
    · have hloop : (importLoop W mode opts um (c :: rest) w).perCard =
          (importCard W mode opts um c w).events ::
            (importLoop W mode opts um rest (importCard W mode opts um c w).world).perCard := by
        simp [importLoop, hv]
      rw [hloop] at h ⊢
      cases i with
      | zero =>
        refine ⟨c, w, by simp, by simpa using h.symm, ?_⟩
        intro _ c2 hc2
        cases rest with
        | nil => simp at hc2
        | cons d rest2 =>
          have hd : d = c2 := by simpa using hc2
          subst hd
          have := importLoop_head W mode opts um d rest2 (importCard W mode opts um c w).world
          simpa using this
      | succ k =>
        obtain ⟨c1, w1, hc1, hseg, hnext⟩ := ih (importCard W mode opts um c w).world k
          (by simpa using h)
        refine ⟨c1, w1, by simpa using hc1, hseg, ?_⟩
        intro hval c2 hc2
        have := hnext hval c2 (by simpa using hc2)
        simpa using this
    · have hloop : (importLoop W mode opts um (c :: rest) w).perCard =
          [(importCard W mode opts um c w).events] := by
        simp [importLoop, hv]
      rw [hloop] at h ⊢
      cases i with
      | zero =>
        refine ⟨c, w, by simp, by simpa using h.symm, ?_⟩
        intro hval
        exact absurd hval hv
      | succ k => simp at h

theorem importCard_skipExists_dup_world {σ : Type} (W : World σ) (opts : ClubhouseOptions)
    (um : UserMap) (card : Card) (w : σ)
    (h : ∃ s ∈ (W.ListStories opts.Project.ID w).1, s.Name = card.Name) :
    (importCard W exitsCardBehavior.SkipExists opts um card w).world =
      (W.ListStories opts.Project.ID w).2 := by
  have hlen : 0 < (getStoryDuplicates W opts { card with IDOwners := [] } w).val.length := by
    rw [getStoryDuplicates_val, List.length_map, List.length_pos]
    obtain ⟨s, hs, hn⟩ := h
    exact List.ne_nil_of_mem (List.mem_filter.mpr ⟨hs, by simpa using hn⟩)
  simp [importCard, hlen]
  simp [getStoryDuplicates]

theorem importCard_skipExists_head {σ : Type} (W : World σ) (opts : ClubhouseOptions)
    (um : UserMap) (card : Card) (w : σ) :
    ∃ rest, (importCard W exitsCardBehavior.SkipExists opts um card w).events =
      Event.listStories opts.Project.ID (W.ListStories opts.Project.ID w).1 :: rest := by
  by_cases hd : ∃ s ∈ (W.ListStories opts.Project.ID w).1, s.Name = card.Name
  · exact ⟨[], (importCard_skipExists_dup W opts um card w hd).1⟩
  · exact ⟨_, (importCard_skipExists_fresh W opts um card w hd).1⟩

/-- C1: in mode `SkipExists`, when the listing returned while card `i` is
processed holds a story with the card's `Name`, no `CreateStory` call is issued
for that card: its events are the `ListStories` call alone. The loop then goes
on: the next card, if there is one, is processed by the loop body, in the world
the listing call left, and its processing starts with its own `ListStories`
call for the project. -/
theorem skipExists_issues_no_create {σ : Type} (W : World σ) (cards : List Card)
    (opts : ClubhouseOptions) (um : UserMap) (w : σ) (i : Nat) (c : Card) (seg : List Event)
    (stories : List Story)
    (hc : cards[i]? = some c)
    (hseg : (ImportCardsIntoClubhouse W exitsCardBehavior.SkipExists cards opts um w).perCard[i]? =
      some seg)
    (hlist : stories ∈ listings seg)
    (hdup : ∃ s ∈ stories, s.Name = c.Name) :
    createCalls seg = [] ∧
      seg = [Event.listStories opts.Project.ID stories] ∧
      (i + 1 < cards.length →
        i + 1 < (ImportCardsIntoClubhouse W exitsCardBehavior.SkipExists cards opts um
          w).perCard.length) ∧
      ∀ c2, cards[i + 1]? = some c2 →
        ∃ w1 rest2,
          seg = (importCard W exitsCardBehavior.SkipExists opts um c w1).events ∧
          stories = (W.ListStories opts.Project.ID w1).1 ∧
          (ImportCardsIntoClubhouse W exitsCardBehavior.SkipExists cards opts um
            w).perCard[i + 1]? =
            some (importCard W exitsCardBehavior.SkipExists opts um c2
              (W.ListStories opts.Project.ID w1).2).events ∧
          (importCard W exitsCardBehavior.SkipExists opts um c2
            (W.ListStories opts.Project.ID w1).2).events =
            Event.listStories opts.Project.ID
              (W.ListStories opts.Project.ID (W.ListStories opts.Project.ID w1).2).1 :: rest2 := by
  have hrun : (ImportCardsIntoClubhouse W exitsCardBehavior.SkipExists cards opts um w).perCard =
      (importLoop W exitsCardBehavior.SkipExists opts um cards w).perCard := rfl
  rw [hrun] at hseg ⊢
  obtain ⟨c1, w1, hc1, hs, hnext⟩ := importLoop_get_next W _ opts um cards w i seg hseg
  have hcc : c1 = c := by
    rw [hc1] at hc
    exact Option.some.inj hc
  subst hcc
  by_cases hd : ∃ s ∈ (W.ListStories opts.Project.ID w1).1, s.Name = c1.Name
  · obtain ⟨he, hv⟩ := importCard_skipExists_dup W opts um c1 w1 hd
    have hw := importCard_skipExists_dup_world W opts um c1 w1 hd
    have hst : stories = (W.ListStories opts.Project.ID w1).1 := by
      rw [hs, he] at hlist
      simpa [listings] using hlist
    refine ⟨?_, ?_, ?_, ?_⟩
    · rw [hs, he]
      simp [createCalls]
    · rw [hs, he, hst]
    · intro hlen
      obtain ⟨c2, hc2⟩ : ∃ c2, cards[i + 1]? = some c2 :=
        ⟨cards[i + 1], List.getElem?_eq_getElem hlen⟩
      have hn := hnext hv c2 hc2
      by_contra hnot
      rw [List.getElem?_eq_none (Nat.le_of_not_lt hnot)] at hn
      exact absurd hn (by simp)
    · intro c2 hc2
      obtain ⟨rest2, hr⟩ := importCard_skipExists_head W opts um c2
        (W.ListStories opts.Project.ID w1).2
      refine ⟨w1, rest2, hs, hst, ?_, hr⟩
      rw [hnext hv c2 hc2, hw]
  · exfalso
    obtain ⟨he, -⟩ := importCard_skipExists_fresh W opts um c1 w1 hd
    have hl := (createAndReport_readings W { c1 with IDOwners := [] } opts um
      (W.ListStories opts.Project.ID w1).2).2.1
    rw [hs, he, ← List.singleton_append, listings_append, hl] at hlist
    have hst : stories = (W.ListStories opts.Project.ID w1).1 := by
      simpa [listings] using hlist
    rw [hst] at hdup
    exact hd hdup

/-- Witness for C1: `loginCard` then `signupCard` imported into `busyHouse`, which
holds stories named like `loginCard`. -/
theorem skipExists_issues_no_create_witness :
    [loginCard, signupCard][0]? = some loginCard ∧
      (ImportCardsIntoClubhouse fakeWorld exitsCardBehavior.SkipExists [loginCard, signupCard]
        demoOpts demoUsers busyHouse).perCard[0]? = some [Event.listStories 1 busyHouse.stories] ∧
      busyHouse.stories ∈ listings [Event.listStories 1 busyHouse.stories] ∧
      (∃ s ∈ busyHouse.stories, s.Name = loginCard.Name) ∧
      createCalls [Event.listStories 1 busyHouse.stories] = [] ∧
      (0 + 1 < [loginCard, signupCard].length →
        0 + 1 < (ImportCardsIntoClubhouse fakeWorld exitsCardBehavior.SkipExists
          [loginCard, signupCard] demoOpts demoUsers busyHouse).perCard.length) ∧
      ∃ w1 rest2,
        [Event.listStories 1 busyHouse.stories] =
          (importCard fakeWorld exitsCardBehavior.SkipExists demoOpts demoUsers loginCard
            w1).events ∧
        busyHouse.stories = (fakeWorld.ListStories demoOpts.Project.ID w1).1 ∧
        (ImportCardsIntoClubhouse fakeWorld exitsCardBehavior.SkipExists [loginCard, signupCard]
          demoOpts demoUsers busyHouse).perCard[0 + 1]? =
          some (importCard fakeWorld exitsCardBehavior.SkipExists demoOpts demoUsers signupCard
            (fakeWorld.ListStories demoOpts.Project.ID w1).2).events ∧
        (importCard fakeWorld exitsCardBehavior.SkipExists demoOpts demoUsers signupCard
          (fakeWorld.ListStories demoOpts.Project.ID w1).2).events =
          Event.listStories demoOpts.Project.ID
            (fakeWorld.ListStories demoOpts.Project.ID
              (fakeWorld.ListStories demoOpts.Project.ID w1).2).1 :: rest2 :=
  ⟨by decide, by decide, by decide, by decide,
    (skipExists_issues_no_create fakeWorld [loginCard, signupCard] demoOpts demoUsers busyHouse 0
      loginCard [Event.listStories 1 busyHouse.stories] busyHouse.stories
      (by decide) (by decide) (by decide) (by decide)).1,
    (skipExists_issues_no_create fakeWorld [loginCard, signupCard] demoOpts demoUsers busyHouse 0
      loginCard [Event.listStories 1 busyHouse.stories] busyHouse.stories
      (by decide) (by decide) (by decide) (by decide)).2.2.1,
    (skipExists_issues_no_create fakeWorld [loginCard, signupCard] demoOpts demoUsers busyHouse 0
      loginCard [Event.listStories 1 busyHouse.stories] busyHouse.stories
      (by decide) (by decide) (by decide) (by decide)).2.2.2 signupCard (by decide)⟩

theorem mapOwners_foldl (um : UserMap) (owners : List String) (acc : List String) :
    owners.foldl (fun owners o => owners ++ [um.GetCreator o]) acc =
      acc ++ owners.map um.GetCreator := by
  induction owners generalizing acc with
  | nil => simp
  | cons o rest ih => simp [ih]

theorem importCard_payloads {σ : Type} (W : World σ) (mode : exitsCardBehavior)
    (opts : ClubhouseOptions) (um : UserMap) (card : Card) (w : σ) :
    ∀ x ∈ createCalls (importCard W mode opts um card w).events,
      x.1.OwnerIds = [] ∧ x.1.Name = card.Name := by
  have hcar : ∀ w1, ∀ x ∈ createCalls
      (createAndReport W { card with IDOwners := [] } opts um w1).events,
      x.1.OwnerIds = [] ∧ x.1.Name = card.Name := by
    intro w1 x hx
    have := (createAndReport_readings W { card with IDOwners := [] } opts um w1).2.2.2.1 x hx
    simpa [mapOwnersFromTrelloCard] using this
  cases mode with
  | AllowDupes => rw [(importCard_allowDupes W opts um card w).1]; exact hcar _
  | DeleteExists =>
    obtain ⟨w1, w2, he, -⟩ := importCard_deleteExists W opts um card w
    rw [he, ← List.singleton_append, createCalls_append, createCalls_append,
      (deleteDuplicates_readings W _ _ w1).2.1]
    simpa [createCalls] using hcar w2
  | SkipExists =>
    by_cases hd : ∃ s ∈ (W.ListStories opts.Project.ID w).1, s.Name = card.Name
    · rw [(importCard_skipExists_dup W opts um card w hd).1]
      simp [createCalls]
    · rw [(importCard_skipExists_fresh W opts um card w hd).1, ← List.singleton_append,
        createCalls_append]
      simpa [createCalls] using hcar _

/-- C3, as the code has it: the driver empties the card's `IDOwners` before it
builds the payload, so in mode `AllowDupes` the payload given to `CreateStory`
for a card (it carries the card's `Name`) has no `OwnerIds`, whatever the card's
`IDOwners`. `mapOwnersFromTrelloCard` itself returns, for a card with n
`IDOwners`, n ids, the i-th being `GetCreator` of the i-th owner. -/
theorem import_payload_has_no_owners {σ : Type} (W : World σ) (cards : List Card)
    (opts : ClubhouseOptions) (um : UserMap) (w : σ) (i : Nat) (c : Card) (seg : List Event)
    (hc : cards[i]? = some c)
    (hseg : (ImportCardsIntoClubhouse W exitsCardBehavior.AllowDupes cards opts um w).perCard[i]? =
      some seg) :
    (∀ x ∈ createCalls seg, x.1.OwnerIds = [] ∧ x.1.Name = c.Name) ∧
      mapOwnersFromTrelloCard c um = c.IDOwners.map um.GetCreator := by
  have hrun : (ImportCardsIntoClubhouse W exitsCardBehavior.AllowDupes cards opts um w).perCard =
      (importLoop W exitsCardBehavior.AllowDupes opts um cards w).perCard := rfl
  rw [hrun] at hseg
  obtain ⟨c1, w1, hc1, hs, -⟩ := importLoop_get W _ opts um cards w i seg hseg
  have hcc : c1 = c := by
    rw [hc1] at hc
    exact Option.some.inj hc
  subst hcc
  refine ⟨?_, ?_⟩
  · rw [hs]
    exact importCard_payloads W _ opts um c1 w1
  · simp [mapOwnersFromTrelloCard, mapOwners_foldl]

/-- Witness for C3 as amended: `loginCard`, which has two owners, imported into
an empty Clubhouse. -/
theorem import_payload_has_no_owners_witness :
    [loginCard][0]? = some loginCard ∧
      (ImportCardsIntoClubhouse fakeWorld exitsCardBehavior.AllowDupes [loginCard] demoOpts
        demoUsers emptyHouse).perCard[0]? =
        some (importCard fakeWorld exitsCardBehavior.AllowDupes demoOpts demoUsers loginCard
          emptyHouse).events ∧
      (∀ x ∈ createCalls
        (importCard fakeWorld exitsCardBehavior.AllowDupes demoOpts demoUsers loginCard
          emptyHouse).events,
        x.1.OwnerIds = [] ∧ x.1.Name = loginCard.Name) ∧
      mapOwnersFromTrelloCard loginCard demoUsers =
        loginCard.IDOwners.map demoUsers.GetCreator :=
  ⟨by decide, by decide,
    import_payload_has_no_owners fakeWorld [loginCard] demoOpts demoUsers emptyHouse 0 loginCard
      (importCard fakeWorld exitsCardBehavior.AllowDupes demoOpts demoUsers loginCard
        emptyHouse).events (by decide) (by decide)⟩

/-- C3 as stated fails: `loginCard` has two owners, one mapped and one not,
`mapOwnersFromTrelloCard` resolves them to "ch-ann" and the fallback "ch-import",
and the one payload `ImportCardsIntoClubhouse` gives to `CreateStory` in mode
`AllowDupes` has no owner at all. -/
theorem import_payload_drops_owners :
    loginCard.IDOwners.length = 2 ∧
      mapOwnersFromTrelloCard loginCard demoUsers = ["ch-ann", "ch-import"] ∧
      (createCalls (ImportCardsIntoClubhouse fakeWorld exitsCardBehavior.AllowDupes [loginCard]
        demoOpts demoUsers emptyHouse).trace).map (fun x => (x.1.Name, x.1.OwnerIds)) =
        [("Fix login bug", [])] := by
  decide

theorem importCard_readings {σ : Type} (W : World σ) (mode : exitsCardBehavior)
    (opts : ClubhouseOptions) (um : UserMap) (card : Card) (w : σ)
    (hv : (importCard W mode opts um card w).val = true) :
    outcomeLines (importCard W mode opts um card w).events =
        (createCalls (importCard W mode opts um card w).events).map
          (fun x => outcomeLine card.ShortURL x.2.1 x.2.2) ∧
      (createCalls (importCard W mode opts um card w).events).length ≤ 1 ∧
      (createCalls (importCard W mode opts um card w).events = [] ↔
        mode = exitsCardBehavior.SkipExists ∧
          ∃ stories ∈ listings (importCard W mode opts um card w).events,
            ∃ s ∈ stories, s.Name = card.Name) ∧
      (mode ≠ exitsCardBehavior.DeleteExists →
        statusLines (importCard W mode opts um card w).events =
          outcomeLines (importCard W mode opts um card w).events) := by
  cases mode with
  | AllowDupes =>
    obtain ⟨he, hval⟩ := importCard_allowDupes W opts um card w
    obtain ⟨-, -, h3, -, h5, h6, h7⟩ :=
      createAndReport_readings W { card with IDOwners := [] } opts um w
    rw [hval] at hv
    rw [he]
    refine ⟨h5, h3, ?_, fun _ => h6⟩
    have h1 := h7 hv
    constructor
    · intro h0
      rw [h0] at h1
      simp at h1
    · intro h0
      exact absurd h0.1 (by decide)
  | DeleteExists =>
    obtain ⟨w1, w2, he, hval⟩ := importCard_deleteExists W opts um card w
    obtain ⟨-, d2, -, d4⟩ := deleteDuplicates_readings W { card with IDOwners := [] }
      (((W.ListStories opts.Project.ID w).1.filter (fun s => s.Name = card.Name)).map
        (fun s => s.ID)) w1
    obtain ⟨-, -, h3, -, h5, -, h7⟩ :=
      createAndReport_readings W { card with IDOwners := [] } opts um w2
    rw [hval] at hv
    have hcc : createCalls (importCard W exitsCardBehavior.DeleteExists opts um card w).events =
        createCalls (createAndReport W { card with IDOwners := [] } opts um w2).events := by
      rw [he, ← List.singleton_append, createCalls_append, createCalls_append, d2]
      simp [createCalls]
    have hoc : outcomeLines (importCard W exitsCardBehavior.DeleteExists opts um card w).events =
        outcomeLines (createAndReport W { card with IDOwners := [] } opts um w2).events := by
      rw [he, ← List.singleton_append, outcomeLines_append, outcomeLines_append, d4]
      simp [outcomeLines, statusLines]
    rw [hcc, hoc]
    refine ⟨h5, h3, ?_, fun h => absurd rfl h⟩
    have h1 := h7 hv
    constructor
    · intro h0
      rw [h0] at h1
      simp at h1
    · intro h0
      exact absurd h0.1 (by decide)
  | SkipExists =>
    by_cases hd : ∃ s ∈ (W.ListStories opts.Project.ID w).1, s.Name = card.Name
    · rw [(importCard_skipExists_dup W opts um card w hd).1]
      refine ⟨by simp [outcomeLines, statusLines, createCalls], by simp [createCalls], ?_,
        fun _ => by simp [outcomeLines, statusLines]⟩
      constructor
      · intro _
        exact ⟨rfl, (W.ListStories opts.Project.ID w).1, by simp [listings], hd⟩
      · intro _
        simp [createCalls]
    · obtain ⟨he, hval⟩ := importCard_skipExists_fresh W opts um card w hd
      obtain ⟨-, h2, h3, -, h5, h6, h7⟩ := createAndReport_readings W
        { card with IDOwners := [] } opts um (W.ListStories opts.Project.ID w).2
      rw [hval] at hv
      have hcc : createCalls (importCard W exitsCardBehavior.SkipExists opts um card w).events =
          createCalls (createAndReport W { card with IDOwners := [] } opts um
            (W.ListStories opts.Project.ID w).2).events := by
        rw [he, ← List.singleton_append, createCalls_append]
        simp [createCalls]
      have hoc : outcomeLines (importCard W exitsCardBehavior.SkipExists opts um card w).events =
          outcomeLines (createAndReport W { card with IDOwners := [] } opts um
            (W.ListStories opts.Project.ID w).2).events := by
        rw [he, ← List.singleton_append, outcomeLines_append]
        simp [outcomeLines, statusLines]
      have hsc : statusLines (importCard W exitsCardBehavior.SkipExists opts um card w).events =
          statusLines (createAndReport W { card with IDOwners := [] } opts um
            (W.ListStories opts.Project.ID w).2).events := by
        rw [he, ← List.singleton_append, statusLines_append]
        simp [statusLines]
      have hlc : listings (importCard W exitsCardBehavior.SkipExists opts um card w).events =
          [(W.ListStories opts.Project.ID w).1] := by
        rw [he, ← List.singleton_append, listings_append, h2]
        simp [listings]
      rw [hcc, hoc, hsc, hlc]
      refine ⟨h5, h3, ?_, fun _ => h6⟩
      have h1 := h7 hv
      constructor
      · intro h0
        rw [h0] at h1
        simp at h1
      · rintro ⟨-, stories, hst, hdup⟩
        rw [List.mem_singleton] at hst
        rw [hst] at hdup
        exact absurd hdup hd

/-- C8, as the code has it: on cards whose comments are all dated, in every
duplicate mode, the run does not stop early and every card is processed in input
order, whether or not earlier `CreateStory` calls failed. A card gets at most
one `CreateStory` call, and none exactly when the mode is `SkipExists` and the
listing holds a story with its name. The "Success"/"Failed" status lines of a
card are one per `CreateStory` call, carrying the card's `ShortURL` and the new
story id or the error: a skipped card gets no status line. Outside mode
`DeleteExists` a card has no other status line. -/
theorem import_outcome_lines {σ : Type} (W : World σ) (mode : exitsCardBehavior)
    (cards : List Card) (opts : ClubhouseOptions) (um : UserMap) (w : σ)
    (hdated : ∀ c ∈ cards, ∀ cm ∈ c.Comments, cm.CreatedAt ≠ none) :
    (ImportCardsIntoClubhouse W mode cards opts um w).panicked = false ∧
      (ImportCardsIntoClubhouse W mode cards opts um w).perCard.length = cards.length ∧
      ∀ (i : Nat) (c : Card) (seg : List Event), cards[i]? = some c →
        (ImportCardsIntoClubhouse W mode cards opts um w).perCard[i]? = some seg →
        outcomeLines seg =
            (createCalls seg).map (fun x => outcomeLine c.ShortURL x.2.1 x.2.2) ∧
          (createCalls seg).length ≤ 1 ∧
          (createCalls seg = [] ↔
            mode = exitsCardBehavior.SkipExists ∧
              ∃ stories ∈ listings seg, ∃ s ∈ stories, s.Name = c.Name) ∧
          (mode ≠ exitsCardBehavior.DeleteExists → statusLines seg = outcomeLines seg) := by
  have hp : (ImportCardsIntoClubhouse W mode cards opts um w).panicked =
      (importLoop W mode opts um cards w).panicked := rfl
  have hrun : (ImportCardsIntoClubhouse W mode cards opts um w).perCard =
      (importLoop W mode opts um cards w).perCard := rfl
  rw [hp, hrun]
  obtain ⟨h1, h2⟩ := importLoop_dated W mode opts um cards w hdated
  refine ⟨h1, h2, ?_⟩
  intro i c seg hc hseg
  obtain ⟨c1, w1, hc1, hs, -⟩ := importLoop_get W mode opts um cards w i seg hseg
  have hcc : c1 = c := by
    rw [hc1] at hc
    exact Option.some.inj hc
  subst hcc
  have hmem : c1 ∈ cards := List.getElem?_mem hc1
  have hv := importCard_val_dated W mode opts um c1 w1 (hdated c1 hmem)
  rw [hs]
  exact importCard_readings W mode opts um c1 w1 hv

/-- Witness for C8 as amended: two dated cards imported in mode `SkipExists`
into `busyHouse`; the first is skipped, the second created. -/
theorem import_outcome_lines_witness :
    (∀ c ∈ [loginCard, signupCard], ∀ cm ∈ c.Comments, cm.CreatedAt ≠ none) ∧
      (ImportCardsIntoClubhouse fakeWorld exitsCardBehavior.SkipExists [loginCard, signupCard]
        demoOpts demoUsers busyHouse).panicked = false ∧
      (ImportCardsIntoClubhouse fakeWorld exitsCardBehavior.SkipExists [loginCard, signupCard]
        demoOpts demoUsers busyHouse).perCard.length = [loginCard, signupCard].length :=
  ⟨by decide,
    (import_outcome_lines fakeWorld exitsCardBehavior.SkipExists [loginCard, signupCard] demoOpts
      demoUsers busyHouse (by decide)).1,
    (import_outcome_lines fakeWorld exitsCardBehavior.SkipExists [loginCard, signupCard] demoOpts
      demoUsers busyHouse (by decide)).2.1⟩

/-- C8 as stated fails: in mode `SkipExists`, importing `loginCard` and
`signupCard` into `busyHouse`, which holds stories named like `loginCard`,
processes both cards and prints one status line in all, the one of `signupCard`:
the skipped card has none. -/
theorem import_skipped_card_has_no_status_line :
    [loginCard, signupCard].length = 2 ∧
      (ImportCardsIntoClubhouse fakeWorld exitsCardBehavior.SkipExists [loginCard, signupCard]
        demoOpts demoUsers busyHouse).panicked = false ∧
      ((ImportCardsIntoClubhouse fakeWorld exitsCardBehavior.SkipExists [loginCard, signupCard]
        demoOpts demoUsers busyHouse).perCard.map statusLines) =
        [[], [["https://trello.com/c/def", "Success", "Story ID: 100"]]] ∧
      statusLines (ImportCardsIntoClubhouse fakeWorld exitsCardBehavior.SkipExists
        [loginCard, signupCard] demoOpts demoUsers busyHouse).trace =
        [["https://trello.com/c/def", "Success", "Story ID: 100"]] := by
  decide

/-- In mode `DeleteExists`, on a card whose comments are all dated, the events of
the card are the listing, then one `DeleteStory` call per listed story with the
card's `Name`, in listing order, whatever the calls return, then exactly one
`CreateStory` call, for the card. -/
theorem deleteExists_dated_card {σ : Type} (W : World σ) (opts : ClubhouseOptions)
    (um : UserMap) (card : Card) (w : σ)
    (hdated : ∀ cm ∈ card.Comments, cm.CreatedAt ≠ none) :
    ∃ pre p st err post,
      (importCard W exitsCardBehavior.DeleteExists opts um card w).events =
        pre ++ Event.createStory p st err :: post ∧
      listings pre = [(W.ListStories opts.Project.ID w).1] ∧
      deleteCalls pre =
        ((W.ListStories opts.Project.ID w).1.filter (fun s => s.Name = card.Name)).map
          (fun s => s.ID) ∧
      createCalls pre = [] ∧ deleteCalls post = [] ∧ createCalls post = [] ∧
      p.Name = card.Name := by
  obtain ⟨w1, w2, he, -⟩ := importCard_deleteExists W opts um card w
  obtain ⟨d1, d2, d3, -⟩ := deleteDuplicates_readings W { card with IDOwners := [] }
    (((W.ListStories opts.Project.ID w).1.filter (fun s => s.Name = card.Name)).map
      (fun s => s.ID)) w1
  rcases createAndReport_cases W { card with IDOwners := [] } opts um w2 with
    ⟨-, -, hb⟩ | ⟨pre0, p, st, err, -, hev, hq, -, hn⟩
  · obtain ⟨p, hp⟩ := buildClubhouseStory_dated W { card with IDOwners := [] } opts um w2 hdated
    rw [hp] at hb
    exact absurd hb (by simp)
  · obtain ⟨q1, q2, q3, -⟩ := hq
    refine ⟨[Event.listStories opts.Project.ID (W.ListStories opts.Project.ID w).1] ++
        (deleteDuplicates W { card with IDOwners := [] }
          (((W.ListStories opts.Project.ID w).1.filter (fun s => s.Name = card.Name)).map
            (fun s => s.ID)) w1).events ++ pre0,
      p, st, err, [Event.printf outputFormat (outcomeLine card.ShortURL st err)],
      ?_, ?_, ?_, ?_, ?_, ?_, hn⟩
    · rw [he, hev]; simp
    · rw [listings_append, listings_append, d3, q3]; simp [listings]
    · rw [deleteCalls_append, deleteCalls_append, d1, q2]; simp [deleteCalls]
    · rw [createCalls_append, createCalls_append, d2, q1]; simp [createCalls]
    · simp [deleteCalls]
    · simp [createCalls]

/-- C2 at a card with an undated comment: in mode `DeleteExists`, importing
`undatedCard` into `busyHouse` calls `DeleteStory` on the two stories named like
the card, then panics while building the payload; `CreateStory` is not called,
not for this card and not for the next one. -/
theorem deleteExists_undated_card_not_created :
    (ImportCardsIntoClubhouse fakeWorld exitsCardBehavior.DeleteExists
      [undatedCard, signupCard] demoOpts demoUsers busyHouse).panicked = true ∧
      deleteCalls (ImportCardsIntoClubhouse fakeWorld exitsCardBehavior.DeleteExists
        [undatedCard, signupCard] demoOpts demoUsers busyHouse).trace = [7, 9] ∧
      createCalls (ImportCardsIntoClubhouse fakeWorld exitsCardBehavior.DeleteExists
        [undatedCard, signupCard] demoOpts demoUsers busyHouse).trace = [] ∧
      (ImportCardsIntoClubhouse fakeWorld exitsCardBehavior.DeleteExists
        [undatedCard, signupCard] demoOpts demoUsers busyHouse).perCard.length = 1 := by
  decide

/-! ## Attachment relocation -/

theorem mapGet_mapSet (m : List (String × TrAttachments)) (k : String) (v : TrAttachments) :
    mapGet (mapSet m k v) k = some v := by
  induction m with
  | nil => simp [mapSet, mapGet]
  | cons e rest ih =>
    obtain ⟨k1, v1⟩ := e
    by_cases h : k1 = k
    · simp [mapSet, mapGet, h]
    · simp [mapSet, mapGet, h, ih]

/-- C9, as the code has it: when the first relocation of an attachment found no
object at the computed path and its download and upload succeeded, it recorded
the `Location` the upload returned; a second relocation of the same attachment of
the same card that finds the object at the path performs no download and no
upload and records the URL made of the client's endpoint, "/", the bucket and the
path. -/
theorem relocateAttachment_twice {σ : Type} (S : S3World σ) (awsS3Bucket : String)
    (card : TrelloCard) (i : Nat) (f : Attachment) (m1 m2 : List (String × TrAttachments))
    (w1 w2 : σ)
    (habsent : (S.HeadObject awsS3Bucket
      (s3Path card.IdList card.Id i (safeFileName f.Name)) w1).1 ≠ none)
    (hget : (S.HttpGet f.Url (S.HeadObject awsS3Bucket
      (s3Path card.IdList card.Id i (safeFileName f.Name)) w1).2).1.2 = none)
    (hup : (S.Upload
      { Bucket := awsS3Bucket, Key := s3Path card.IdList card.Id i (safeFileName f.Name),
        ACL := "private",
        Body := (S.HttpGet f.Url (S.HeadObject awsS3Bucket
          (s3Path card.IdList card.Id i (safeFileName f.Name)) w1).2).1.1.Body,
        ContentType := (S.HttpGet f.Url (S.HeadObject awsS3Bucket
          (s3Path card.IdList card.Id i (safeFileName f.Name)) w1).2).1.1.ContentType }
      (S.HttpGet f.Url (S.HeadObject awsS3Bucket
        (s3Path card.IdList card.Id i (safeFileName f.Name)) w1).2).2).1.2 = none)
    (hexists : (S.HeadObject awsS3Bucket
      (s3Path card.IdList card.Id i (safeFileName f.Name)) w2).1 = none) :
    downloads (relocateAttachment S awsS3Bucket card i f m2 w2).events = [] ∧
      uploads (relocateAttachment S awsS3Bucket card i f m2 w2).events = [] ∧
      mapGet (relocateAttachment S awsS3Bucket card i f m2 w2).fileIds (safeFileName f.Name) =
        some { Url := S.Endpoint ++ "/" ++ awsS3Bucket ++
                 s3Path card.IdList card.Id i (safeFileName f.Name)
               IDCreator := f.IdMember } ∧
      mapGet (relocateAttachment S awsS3Bucket card i f m1 w1).fileIds (safeFileName f.Name) =
        some { Url := (S.Upload
                 { Bucket := awsS3Bucket
                   Key := s3Path card.IdList card.Id i (safeFileName f.Name)
                   ACL := "private"
                   Body := (S.HttpGet f.Url (S.HeadObject awsS3Bucket
                     (s3Path card.IdList card.Id i (safeFileName f.Name)) w1).2).1.1.Body
                   ContentType := (S.HttpGet f.Url (S.HeadObject awsS3Bucket
                     (s3Path card.IdList card.Id i (safeFileName f.Name)) w1).2).1.1.ContentType }
                 (S.HttpGet f.Url (S.HeadObject awsS3Bucket
                   (s3Path card.IdList card.Id i (safeFileName f.Name)) w1).2).2).1.1
               IDCreator := f.IdMember } := by
  obtain ⟨e, he⟩ := Option.ne_none_iff_exists'.mp habsent
  refine ⟨?_, ?_, ?_, ?_⟩
  · simp [relocateAttachment, hexists, downloads]
  · simp [relocateAttachment, hexists, uploads]
  · simp [relocateAttachment, hexists, mapGet_mapSet]
  · simp [relocateAttachment, he, hget, hup, mapGet_mapSet]

/-- Witness for C9 as amended: `shotAttachment` relocated into the empty store
and then into a store that holds its key. -/
theorem relocateAttachment_twice_witness :
    ((fakeS3.HeadObject "bkt" (s3Path shotCard.IdList shotCard.Id 0
        (safeFileName shotAttachment.Name)) []).1 ≠ none ∧
      (fakeS3.HeadObject "bkt" (s3Path shotCard.IdList shotCard.Id 0
        (safeFileName shotAttachment.Name)) ["/trello/L1/C1/0_shot_1.png"]).1 = none) ∧
      downloads (relocateAttachment fakeS3 "bkt" shotCard 0 shotAttachment []
        ["/trello/L1/C1/0_shot_1.png"]).events = [] :=
  ⟨⟨by decide, by decide⟩,
    (relocateAttachment_twice fakeS3 "bkt" shotCard 0 shotAttachment [] []
      [] ["/trello/L1/C1/0_shot_1.png"] (by decide) (by decide) (by decide) (by decide)).1⟩

/-- C9 as stated fails: relocating `shotAttachment` twice against `fakeS3`, the
first run uploads it and records the location the upload returned; the second
run finds the object, downloads and uploads nothing, and records another URL
for the same attachment. -/
theorem second_relocation_records_other_url :
    firstRun.map (fun r => (uploads r.events).map (fun u => u.Key)) =
        some ["/trello/L1/C1/0_shot_1.png"] ∧
      secondRun.map (fun r => (downloads r.events, uploads r.events)) = some ([], []) ∧
      (firstRun.bind (fun r => mapGet r.fileIds "shot_1.png")).map (fun a => a.Url) =
        some "https://bkt.s3.amazonaws.com/trello/L1/C1/0_shot_1.png" ∧
      (secondRun.bind (fun r => mapGet r.fileIds "shot_1.png")).map (fun a => a.Url) =
        some "https://s3.amazonaws.com/bkt/trello/L1/C1/0_shot_1.png" := by
  decide

/-! ## Attachment paths -/

theorem split_at_first {α : Type} (sep : α) (a b c d : List α) (ha : sep ∉ a) (hc : sep ∉ c)
    (h : a ++ sep :: b = c ++ sep :: d) : a = c ∧ b = d := by
  induction a generalizing c with
  | nil =>
    cases c with
    | nil => simpa using h
    | cons y ys =>
      simp only [List.nil_append, List.cons_append, List.cons.injEq] at h
      exact absurd (h.1 ▸ List.mem_cons_self _ _) hc
  | cons x xs ih =>
    cases c with
    | nil =>
      simp only [List.nil_append, List.cons_append, List.cons.injEq] at h
      exact absurd (h.1 ▸ List.mem_cons_self _ _) ha
    | cons y ys =>
      simp only [List.cons_append, List.cons.injEq] at h
      obtain ⟨h1, h2⟩ := ih ys (fun hm => ha (List.mem_cons_of_mem _ hm))
        (fun hm => hc (List.mem_cons_of_mem _ hm)) h.2
      exact ⟨by rw [h.1, h1], h2⟩

theorem split_at_last {α : Type} (sep : α) (a b c d : List α) (hb : sep ∉ b) (hd : sep ∉ d)
    (h : a ++ sep :: b = c ++ sep :: d) : a = c ∧ b = d := by
  have hr : b.reverse ++ sep :: a.reverse = d.reverse ++ sep :: c.reverse := by
    have := congrArg List.reverse h
    simpa using this
  obtain ⟨h1, h2⟩ := split_at_first sep b.reverse a.reverse d.reverse c.reverse
    (by simpa using hb) (by simpa using hd) hr
  exact ⟨List.reverse_injective h2, List.reverse_injective h1⟩

theorem digitChar_value : ∀ d < 10, (Nat.digitChar d).toNat - 48 = d := by decide

theorem digitChar_plain : ∀ d < 10, Nat.digitChar d ≠ '_' ∧ Nat.digitChar d ≠ '/' := by decide

theorem toDigitsCore_chars (fuel n : Nat) (ds : List Char) (c : Char)
    (h : c ∈ Nat.toDigitsCore 10 fuel n ds) : c ∈ ds ∨ ∃ d < 10, c = Nat.digitChar d := by
  induction fuel generalizing n ds with
  | zero => left; simpa [Nat.toDigitsCore] using h
  | succ k ih =>
    simp only [Nat.toDigitsCore] at h
    split at h
    · rcases List.mem_cons.mp h with h1 | h1
      · exact Or.inr ⟨n % 10, Nat.mod_lt _ (by decide), h1⟩
      · exact Or.inl h1
    · rcases ih _ _ h with h1 | h1
      · rcases List.mem_cons.mp h1 with h2 | h2
        · exact Or.inr ⟨n % 10, Nat.mod_lt _ (by decide), h2⟩
        · exact Or.inl h2
      · exact Or.inr h1

theorem toDigitsCore_value (fuel n : Nat) (ds : List Char) (h : n < fuel) :
    (Nat.toDigitsCore 10 fuel n ds).foldl (fun a c => 10 * a + (c.toNat - 48)) 0 =
      ds.foldl (fun a c => 10 * a + (c.toNat - 48)) n := by
  induction fuel generalizing n ds with
  | zero => omega
  | succ k ih =>
    simp only [Nat.toDigitsCore]
    split
    · rename_i h0
      have hn : n < 10 := by omega
      simp only [List.foldl_cons, Nat.mul_zero, Nat.zero_add]
      rw [digitChar_value _ (Nat.mod_lt _ (by decide)), Nat.mod_eq_of_lt hn]
    · rename_i h0
      rw [ih (n / 10) _ (by omega)]
      simp only [List.foldl_cons]
      rw [digitChar_value _ (Nat.mod_lt _ (by decide))]
      congr 1
      omega

theorem toDigits_injective (n m : Nat) (h : Nat.toDigits 10 n = Nat.toDigits 10 m) : n = m := by
  have hn := toDigitsCore_value (n + 1) n [] (Nat.lt_succ_self n)
  have hm := toDigitsCore_value (m + 1) m [] (Nat.lt_succ_self m)
  simp only [List.foldl_nil] at hn hm
  unfold Nat.toDigits at h
  rw [← hn, ← hm, h]

theorem toDigits_plain (n : Nat) : '_' ∉ Nat.toDigits 10 n ∧ '/' ∉ Nat.toDigits 10 n := by
  constructor
  · intro hmem
    rcases toDigitsCore_chars _ _ _ _ hmem with h | ⟨d, hd, h⟩
    · simp at h
    · exact (digitChar_plain d hd).1 h.symm
  · intro hmem
    rcases toDigitsCore_chars _ _ _ _ hmem with h | ⟨d, hd, h⟩
    · simp at h
    · exact (digitChar_plain d hd).2 h.symm

theorem replaceUnsafeRuns_no_slash (inRun : Bool) (cs : List Char) :
    '/' ∉ replaceUnsafeRuns inRun cs := by
  induction cs generalizing inRun with
  | nil => simp [replaceUnsafeRuns]
  | cons c rest ih =>
    simp only [replaceUnsafeRuns]
    split
    · rename_i hsafe
      intro hmem
      rcases List.mem_cons.mp hmem with h | h
      · rw [← h] at hsafe
        exact absurd hsafe (by decide)
      · exact ih _ h
    · split
      · exact ih _
      · intro hmem
        rcases List.mem_cons.mp hmem with h | h
        · exact absurd h (by decide)
        · exact ih _ h

theorem dropboxPath_eq_s3Path (idList id : String) (i : Nat) (name : String) :
    dropboxPath idList id i name = s3Path idList id i name := rfl

theorem s3Path_data (l c : String) (i : Nat) (n : String) :
    (s3Path l c i n).data =
      "/trello/".data ++
        ((l.data ++ '/' :: c.data) ++ '/' :: (Nat.toDigits 10 i ++ '_' :: n.data)) := by
  have hd : (toString i).data = Nat.toDigits 10 i := rfl
  have hs : ("/" : String).data = ['/'] := rfl
  have hu : ("_" : String).data = ['_'] := rfl
  simp only [s3Path, folderPath, String.data_append, hd, hs, hu, List.append_assoc,
    List.singleton_append, List.cons_append, List.nil_append]

theorem idPair_data (l c : String) : (l ++ "/" ++ c).data = l.data ++ '/' :: c.data := by
  have hs : ("/" : String).data = ['/'] := rfl
  simp only [String.data_append, hs, List.append_assoc, List.singleton_append]

theorem s3Path_eq_iff (l1 c1 l2 c2 : String) (i j : Nat) (n1 n2 : String) :
    s3Path l1 c1 i (safeFileName n1) = s3Path l2 c2 j (safeFileName n2) ↔
      l1 ++ "/" ++ c1 = l2 ++ "/" ++ c2 ∧ i = j ∧ safeFileName n1 = safeFileName n2 := by
  have htail : ∀ (k : Nat) (n : String),
      '/' ∉ Nat.toDigits 10 k ++ '_' :: (safeFileName n).data := by
    intro k n hmem
    rcases List.mem_append.mp hmem with h | h
    · exact (toDigits_plain k).2 h
    · rcases List.mem_cons.mp h with h1 | h1
      · exact absurd h1 (by decide)
      · exact replaceUnsafeRuns_no_slash false n.data h1
  constructor
  · intro h
    rw [String.ext_iff, s3Path_data, s3Path_data] at h
    have h2 := List.append_cancel_left h
    obtain ⟨hx, hr⟩ := split_at_last '/' _ _ _ _ (htail i n1) (htail j n2) h2
    obtain ⟨hdig, hname⟩ := split_at_first '_' _ _ _ _ (toDigits_plain i).1 (toDigits_plain j).1 hr
    refine ⟨?_, toDigits_injective i j hdig, String.ext hname⟩
    rw [String.ext_iff, idPair_data, idPair_data]
    exact hx
  · rintro ⟨hx, hij, hn⟩
    rw [String.ext_iff, idPair_data, idPair_data] at hx
    rw [String.ext_iff, s3Path_data, s3Path_data, hx, hij, hn]

/-- C10, as the code has it: the storage path "/trello/<list id>/<card id>/<index>_<sanitized name>"
of an attachment, the same in both relocators, differs from the path of another
attachment whenever the two differ in list id, card id or index, for all
attachment names, if they belong to the same card or the list ids (or the card
ids) hold no '/'. -/
theorem attachment_paths_distinct (l1 c1 l2 c2 : String) (i j : Nat) (n1 n2 : String)
    (hids : (l1 = l2 ∧ c1 = c2) ∨ ('/' ∉ l1.data ∧ '/' ∉ l2.data) ∨
      ('/' ∉ c1.data ∧ '/' ∉ c2.data))
    (hdiff : l1 ≠ l2 ∨ c1 ≠ c2 ∨ i ≠ j) :
    s3Path l1 c1 i (safeFileName n1) ≠ s3Path l2 c2 j (safeFileName n2) ∧
      dropboxPath l1 c1 i (safeFileName n1) ≠ dropboxPath l2 c2 j (safeFileName n2) := by
  have key : s3Path l1 c1 i (safeFileName n1) ≠ s3Path l2 c2 j (safeFileName n2) := by
    intro h
    obtain ⟨hx, hij, -⟩ := (s3Path_eq_iff l1 c1 l2 c2 i j n1 n2).mp h
    have hsame : l1 = l2 ∧ c1 = c2 := by
      rcases hids with h0 | ⟨h1, h2⟩ | ⟨h1, h2⟩
      · exact h0
      · rw [String.ext_iff, idPair_data, idPair_data] at hx
        obtain ⟨ha, hb⟩ := split_at_first '/' _ _ _ _ h1 h2 hx
        exact ⟨String.ext ha, String.ext hb⟩
      · rw [String.ext_iff, idPair_data, idPair_data] at hx
        obtain ⟨ha, hb⟩ := split_at_last '/' _ _ _ _ h1 h2 hx
        exact ⟨String.ext ha, String.ext hb⟩
    rcases hdiff with h1 | h1 | h1
    · exact h1 hsame.1
    · exact h1 hsame.2
    · exact h1 hij
  exact ⟨key, by rw [dropboxPath_eq_s3Path, dropboxPath_eq_s3Path]; exact key⟩

/-- Witness for C10 as amended: two cards of one list, ids without '/', the same
index and the same attachment name. -/
theorem attachment_paths_distinct_witness :
    (("L1" = "L1" ∧ "C1" = "C2") ∨ ('/' ∉ "L1".data ∧ '/' ∉ "L1".data) ∨
        ('/' ∉ "C1".data ∧ '/' ∉ "C2".data)) ∧
      ("L1" ≠ "L1" ∨ "C1" ≠ "C2" ∨ 0 ≠ 0) ∧
      s3Path "L1" "C1" 0 (safeFileName "shot 1.png") ≠
        s3Path "L1" "C2" 0 (safeFileName "shot 1.png") ∧
      dropboxPath "L1" "C1" 0 (safeFileName "shot 1.png") ≠
        dropboxPath "L1" "C2" 0 (safeFileName "shot 1.png") :=
  ⟨by decide, by decide,
    attachment_paths_distinct "L1" "C1" "L1" "C2" 0 0 "shot 1.png" "shot 1.png"
      (by decide) (by decide)⟩

/-- C10 as stated fails: a card "b/c" of list "a" and a card "c" of list "a/b"
differ in list id and in card id, and their attachments at index 0 named
"shot 1.png" get the same path, in both relocators. -/
theorem attachment_paths_collide :
    ("a" : String) ≠ "a/b" ∧ ("b/c" : String) ≠ "c" ∧
      s3Path "a" "b/c" 0 (safeFileName "shot 1.png") =
        s3Path "a/b" "c" 0 (safeFileName "shot 1.png") ∧
      dropboxPath "a" "b/c" 0 (safeFileName "shot 1.png") =
        dropboxPath "a/b" "c" 0 (safeFileName "shot 1.png") ∧
      s3Path "a" "b/c" 0 (safeFileName "shot 1.png") = "/trello/a/b/c/0_shot_1.png" := by
  decide

/-! ## Undated comments -/

theorem parseDateOrReturnNil_error (timeParse : String → String → Except String Time)
    (strDate e : String) (h : timeParse dateLayout strDate = Except.error e) :
    parseDateOrReturnNil timeParse strDate = none := by
  simp [parseDateOrReturnNil, h]

/-- The normaliser does produce undated comments: a "commentCard" action with
non-empty text whose date `time.Parse` rejects gives a `Comment` with a nil
`CreatedAt`. -/
theorem getCommentsAndCardCreator_undated (timeParse : String → String → Except String Time)
    (actions : List Action) (a : Action) (e : String) (ha : a ∈ actions)
    (hty : a.Typ = "commentCard") (htext : a.Data.Text ≠ "")
    (hdate : timeParse dateLayout a.Date = Except.error e) :
    ∃ cm ∈ (getCommentsAndCardCreator timeParse actions).2.2,
      cm.Text = a.Data.Text ∧ cm.CreatedAt = none := by
  have hc : (getCommentsAndCardCreator timeParse actions).2.2 =
      (actions.foldl (scanAction timeParse)
        { creator := "", createdAt := none, comments := [] }).comments := rfl
  rw [hc, scanAction_foldl_comments, List.nil_append]
  refine ⟨{ Text := a.Data.Text, IDCreator := a.MemberCreator.Id,
            CreatorName := a.MemberCreator.FullName, CreatedAt := none }, ?_, rfl, rfl⟩
  rw [List.mem_filterMap]
  refine ⟨a, ha, ?_⟩
  simp [hty, htext, parseDateOrReturnNil_error timeParse a.Date e hdate]

theorem buildCommentsLoop_none_iff (um : UserMap) (cms : List Comment)
    (acc : List CreateComment) :
    buildCommentsLoop um cms acc = none ↔ ∃ cm ∈ cms, cm.CreatedAt = none := by
  induction cms generalizing acc with
  | nil => simp [buildCommentsLoop]
  | cons cm rest ih =>
    cases hcm : cm.CreatedAt with
    | none =>
      simp only [buildCommentsLoop, hcm, true_iff]
      exact ⟨cm, List.mem_cons_self _ _, hcm⟩
    | some t =>
      simp only [buildCommentsLoop, hcm]
      rw [ih]
      constructor
      · rintro ⟨x, hx, hn⟩
        exact ⟨x, List.mem_cons_of_mem _ hx, hn⟩
      · rintro ⟨x, hx, hn⟩
        rcases List.mem_cons.mp hx with h | h
        · rw [h, hcm] at hn
          exact absurd hn (by simp)
        · exact ⟨x, h, hn⟩

/-- The payload builder panics exactly on the cards that have a comment with a
nil `CreatedAt`, and then no linked file has been created. -/
theorem buildClubhouseStory_none_iff {σ : Type} (W : World σ) (card : Card)
    (opts : ClubhouseOptions) (um : UserMap) (w : σ) :
    (buildClubhouseStory W card opts um w).val = none ↔
      ∃ cm ∈ card.Comments, cm.CreatedAt = none := by
  rw [← buildCommentsLoop_none_iff um card.Comments []]
  cases hl : buildCommentsLoop um card.Comments [] with
  | none => simp [buildClubhouseStory, buildComments, hl]
  | some comments =>
    have hval : ∃ cs, (buildComments W card opts.AddCommentWithTrelloLink um w).val = some cs := by
      simp only [buildComments, hl]
      split <;> exact ⟨_, rfl⟩
    obtain ⟨cs, hcs⟩ := hval
    simp [buildClubhouseStory, hcs]

/-- In the modes that do not skip, a card with an undated comment ends the run:
the loop body reports the panic and no `CreateStory` call is made for it. -/
theorem importCard_undated {σ : Type} (W : World σ) (mode : exitsCardBehavior)
    (opts : ClubhouseOptions) (um : UserMap) (card : Card) (w : σ)
    (hmode : mode ≠ exitsCardBehavior.SkipExists)
    (h : ∃ cm ∈ card.Comments, cm.CreatedAt = none) :
    (importCard W mode opts um card w).val = false ∧
      createCalls (importCard W mode opts um card w).events = [] := by
  have hcar : ∀ w1, (createAndReport W { card with IDOwners := [] } opts um w1).val = false ∧
      createCalls (createAndReport W { card with IDOwners := [] } opts um w1).events = [] := by
    intro w1
    have hb := (buildClubhouseStory_none_iff W { card with IDOwners := [] } opts um w1).mpr h
    rcases createAndReport_cases W { card with IDOwners := [] } opts um w1 with
      ⟨hv, hq, -⟩ | ⟨pre, p, st, err, hv, he, -⟩
    · exact ⟨hv, hq.1⟩
    · exfalso
      have hval : (createAndReport W { card with IDOwners := [] } opts um w1).val = false := by
        simp only [createAndReport, hb]
      rw [hval] at hv
      exact absurd hv (by simp)
  cases mode with
  | SkipExists => exact absurd rfl hmode
  | AllowDupes =>
    obtain ⟨he, hv⟩ := importCard_allowDupes W opts um card w
    rw [he, hv]
    exact hcar w
  | DeleteExists =>
    obtain ⟨w1, w2, he, hv⟩ := importCard_deleteExists W opts um card w
    rw [hv, he, ← List.singleton_append, createCalls_append, createCalls_append,
      (deleteDuplicates_readings W _ _ w1).2.1, (hcar w2).2]
    exact ⟨(hcar w2).1, by simp [createCalls]⟩

/-- C11 at a card with an undated comment: the normaliser turns `undatedLog`,
whose comment action has a date that does not parse, into the comments of
`undatedCard`; on that card `buildComments` and `buildClubhouseStory` end in the
nil dereference instead of returning a payload, and the batch
`[undatedCard, signupCard]` stops there: no `CreateStory` call at all, and
`signupCard` is never processed. -/
theorem buildClubhouseStory_undated_card_panics :
    (getCommentsAndCardCreator stubTimeParse undatedLog).2.2 = undatedCard.Comments ∧
      (buildComments fakeWorld undatedCard demoOpts.AddCommentWithTrelloLink demoUsers
        emptyHouse).val = none ∧
      (buildClubhouseStory fakeWorld undatedCard demoOpts demoUsers emptyHouse).val = none ∧
      (ImportCardsIntoClubhouse fakeWorld exitsCardBehavior.AllowDupes
        [undatedCard, signupCard] demoOpts demoUsers emptyHouse).panicked = true ∧
      (ImportCardsIntoClubhouse fakeWorld exitsCardBehavior.AllowDupes
        [undatedCard, signupCard] demoOpts demoUsers emptyHouse).perCard = [[]] ∧
      createCalls (ImportCardsIntoClubhouse fakeWorld exitsCardBehavior.AllowDupes
        [undatedCard, signupCard] demoOpts demoUsers emptyHouse).trace = [] := by
  decide

end TrelloToClubhouse
